import Mathlib

/-!
Verification of the BenzoApp fuel-station pipeline
(`src/services/prezzi_csv.py`, `src/services/fuel_api.py`,
`src/services/fuel_type_utils.py`, `src/services/geocoding.py`).

Conventions of the shallow embedding:
* Python `str` is Lean `String`; Python `float` values the claims reason about
  (prices, coordinates, distances) are modelled as exact rationals `ℚ`.
* String primitives (`split`, `strip`, `lower`, `replace`, `isdigit`, `in`)
  are re-implemented over the character list `String.data` so that every
  definition evaluates inside the kernel.
* `float(...)` string parsing, `csv.Sniffer`, `dateutil.parser.parse` and the
  floating-point haversine computation are external libraries, not code of
  this repository; each is abstracted as an explicit function parameter and
  every theorem quantifies over it.  Concrete instances are supplied for
  witnesses.
* Fallible Python code (raising exceptions) is modelled with `Option`/`Except`.
* A Python `dict` (insertion-ordered, overwriting in place) is modelled as an
  association list `List (String × α)` with `dictFind`/`dictInsert`/`dictUpdate`.
-/

/-! ## Python string primitives -/

/-- The ASCII upper→lower table backing `pyLowerChar`. -/
def LOWER_TABLE : List (Char × Char) :=
  [('A','a'),('B','b'),('C','c'),('D','d'),('E','e'),('F','f'),('G','g'),
   ('H','h'),('I','i'),('J','j'),('K','k'),('L','l'),('M','m'),('N','n'),
   ('O','o'),('P','p'),('Q','q'),('R','r'),('S','s'),('T','t'),('U','u'),
   ('V','v'),('W','w'),('X','x'),('Y','y'),('Z','z')]

/-- Lower-case one character (ASCII; the repository's fuel keys and city
aliases are ASCII). -/
def pyLowerChar (c : Char) : Char :=
  match LOWER_TABLE.find? (fun p => p.1 = c) with
  | some p => p.2
  | none => c

/-- Python `str.lower()`. -/
def pyLower (s : String) : String :=
  String.mk (s.data.map pyLowerChar)

/-- Python `str.strip()` (no argument): remove leading and trailing
whitespace. -/
def pyStrip (s : String) : String :=
  String.mk (((s.data.dropWhile Char.isWhitespace).reverse.dropWhile Char.isWhitespace).reverse)

/-- Python `str.isdigit()` (ASCII digits; the station ids in the data are
ASCII). -/
def pyIsdigit (s : String) : Bool :=
  !s.data.isEmpty && s.data.all Char.isDigit

/-- Splitting worker for `pySplit`; the `fuel` argument only makes the
recursion structural and is always given as the length of the text plus one. -/
def chSplitAux (sep : List Char) : Nat → List Char → List (List Char)
  | _, [] => [[]]
  | 0, l => [l]
  | fuel + 1, c :: rest =>
    if sep.isPrefixOf (c :: rest) then
      [] :: chSplitAux sep fuel ((c :: rest).drop sep.length)
    else
      match chSplitAux sep fuel rest with
      | [] => [[c]]
      | chunk :: more => (c :: chunk) :: more

/-- Python `s.split(sep)` for a non-empty separator. -/
def pySplit (s sep : String) : List String :=
  if sep = "" then [s]
  else (chSplitAux sep.data (s.data.length + 1) s.data).map String.mk

/-- Python `str.splitlines()` for `"\n"`-separated text: like splitting on
`"\n"` but with no entry after a trailing newline, and `[]` on `""`. -/
def pySplitlines (s : String) : List String :=
  if s = "" then []
  else
    let l := pySplit s "\n"
    if l.getLast? = some "" then l.dropLast else l

/-- Substring search worker: does `sub` occur inside the haystack? -/
def chHasSub (sub : List Char) : List Char → Bool
  | [] => sub.isEmpty
  | c :: rest => sub.isPrefixOf (c :: rest) || chHasSub sub rest

/-- Python `sub in s` substring containment. -/
def pyContains (s sub : String) : Bool :=
  chHasSub sub.data s.data

/-- Python `s.replace(",", ".")` (both arguments are single characters in the
source, so this is a character map). -/
def pyCommaToDot (s : String) : String :=
  String.mk (s.data.map (fun c => if c = ',' then '.' else c))

/-- Python `force_delimiter or detected`: `None` and the empty string fall
through to the detected value. -/
def pyOrStr (o : Option String) (d : String) : String :=
  match o with
  | some s => if s = "" then d else s
  | none => d

/-- Embeds `" ".join(l)` and friends. -/
def joinWith (sep : String) (l : List String) : String :=
  String.mk (List.intercalate sep.data (l.map String.data))

/-- Decimal digit-string value accumulator. -/
def digitsVal : List Char → Nat → Nat
  | [], acc => acc
  | c :: rest, acc => digitsVal rest (acc * 10 + (c.toNat - 48))

/-- Parse a non-empty all-digit string as a natural number. -/
def pyNat? (s : String) : Option Nat :=
  if !s.data.isEmpty && s.data.all Char.isDigit then some (digitsVal s.data 0) else none

/-- Python `int(s)` on decimal literals (optional sign, surrounding
whitespace). -/
def pyInt (s : String) : Option Int :=
  let t := pyStrip s
  match t.data with
  | '-' :: rest => (pyNat? (String.mk rest)).map (fun n => -(n : Int))
  | '+' :: rest => (pyNat? (String.mk rest)).map (fun n => (n : Int))
  | _ => (pyNat? t).map (fun n => (n : Int))

/-! ## Python dict as an insertion-ordered association list -/

/-- Python `d.get(k)` / `k in d`. -/
def dictFind {α : Type} : List (String × α) → String → Option α
  | [], _ => none
  | (k', v) :: rest, k => if k' = k then some v else dictFind rest k

/-- Python `d[k] = v`: overwrite in place if the key exists, append
otherwise. -/
def dictInsert {α : Type} (k : String) (v : α) : List (String × α) → List (String × α)
  | [] => [(k, v)]
  | (k', v') :: rest => if k' = k then (k, v) :: rest else (k', v') :: dictInsert k v rest

/-- Apply `f` to the value stored at key `k` (no-op if the key is absent). -/
def dictUpdate {α : Type} (k : String) (f : α → α) : List (String × α) → List (String × α)
  | [] => []
  | (k', v') :: rest => if k' = k then (k', f v') :: rest else (k', v') :: dictUpdate k f rest

/-! ## `src/services/fuel_type_utils.py` -/

/-- Embeds `FUEL_TYPE_MAPPING` from `fuel_type_utils.py`. -/
def FUEL_TYPE_MAPPING : List (String × String) :=
  [("diesel", "gasolio"),
   ("gasolio", "gasolio"),
   ("benzina", "benzina"),
   ("gasoline", "benzina"),
   ("petrol", "benzina"),
   ("gpl", "GPL"),
   ("metano", "metano")]

/-- Embeds `normalize_fuel_type` from `fuel_type_utils.py`: the empty string maps to
`""`, anything else to `FUEL_TYPE_MAPPING.get(lower, lower)`. -/
def normalize_fuel_type (fuelType : String) : String :=
  if fuelType = "" then ""
  else (dictFind FUEL_TYPE_MAPPING (pyLower fuelType)).getD (pyLower fuelType)

/-! ## Timestamps (UTC, in seconds) and `_parse_date` / `_is_recent` -/

/-- Gregorian leap year. -/
def isLeap (y : Nat) : Bool :=
  y % 4 = 0 && (y % 100 ≠ 0 || y % 400 = 0)

/-- Days in a month (`datetime` validates the day against this). -/
def daysInMonth (y m : Nat) : Nat :=
  if m = 2 then (if isLeap y then 29 else 28)
  else if m = 4 ∨ m = 6 ∨ m = 9 ∨ m = 11 then 30
  else 31

/-- Days from 1970-01-01 to the given proleptic-Gregorian civil date
(standard days-from-civil algorithm, floor division). -/
def civilDays (y m d : Nat) : Int :=
  let yAdj : Int := if (m : Int) ≤ 2 then (y : Int) - 1 else (y : Int)
  let era : Int := Int.fdiv yAdj 400
  let yoe : Int := yAdj - era * 400
  let mp : Int := Int.emod ((m : Int) + 9) 12
  let doy : Int := Int.fdiv (153 * mp + 2) 5 + (d : Int) - 1
  let doe : Int := yoe * 365 + Int.fdiv yoe 4 - Int.fdiv yoe 100 + doy
  era * 146097 + doe - 719468

/-- UTC timestamp in seconds of a civil date-time. -/
def tsOf (d m y hh mi se : Nat) : Int :=
  civilDays y m d * 86400 + (hh : Int) * 3600 + (mi : Int) * 60 + (se : Int)

/-- A numeric field of at most `maxLen` digits. -/
def numField (s : String) (maxLen : Nat) : Option Nat :=
  if !s.data.isEmpty && decide (s.data.length ≤ maxLen) && s.data.all Char.isDigit
  then some (digitsVal s.data 0) else none

/-- Embeds `strptime`-style `%d/%m/%Y` (day and month 1–2 digits,
year exactly 4 digits, ranges validated as `datetime` does). -/
def parseDMY (s : String) : Option (Nat × Nat × Nat) :=
  match pySplit s "/" with
  | [ds, ms, ys] =>
    match numField ds 2, numField ms 2, numField ys 4 with
    | some d, some m, some y =>
      if ys.data.length = 4 ∧ 1 ≤ m ∧ m ≤ 12 ∧ 1 ≤ d ∧ d ≤ daysInMonth y m
      then some (d, m, y) else none
    | _, _, _ => none
  | _ => none

/-- Embeds `strptime`-style `%H:%M:%S`. -/
def parseHMS (s : String) : Option (Nat × Nat × Nat) :=
  match pySplit s ":" with
  | [hs, ms, ss] =>
    match numField hs 2, numField ms 2, numField ss 2 with
    | some h, some mi, some se =>
      if h ≤ 23 ∧ mi ≤ 59 ∧ se ≤ 59 then some (h, mi, se) else none
    | _, _, _ => none
  | _ => none

/-- Embeds `strptime`-style `%H:%M`. -/
def parseHM (s : String) : Option (Nat × Nat) :=
  match pySplit s ":" with
  | [hs, ms] =>
    match numField hs 2, numField ms 2 with
    | some h, some mi => if h ≤ 23 ∧ mi ≤ 59 then some (h, mi) else none
    | _, _ => none
  | _ => none

/-- The `for fmt in (...)` loop of `_parse_date`: try
`"%d/%m/%Y %H:%M:%S"`, `"%d/%m/%Y %H:%M"`, `"%d/%m/%Y"` in order. -/
def tryStrptimeFormats (s : String) : Option Int :=
  match pySplit s " " with
  | [ds, ts] =>
    (match parseDMY ds, parseHMS ts with
     | some (d, m, y), some (hh, mi, se) => some (tsOf d m y hh mi se)
     | _, _ =>
       match parseDMY ds, parseHM ts with
       | some (d, m, y), some (hh, mi) => some (tsOf d m y hh mi 0)
       | _, _ => none)
  | [ds] =>
    (match parseDMY ds with
     | some (d, m, y) => some (tsOf d m y 0 0 0)
     | _ => none)
  | _ => none

/-- Embeds `_parse_date` from `prezzi_csv.py`.  A falsy (empty) input returns `None`;
then the three `strptime` formats are tried; finally
`dateutil.parser.parse` — abstracted as the parameter `du`, whose `none`
models the exception it raises on unparseable input, which `_parse_date`
does not catch (hence `Except`). -/
def parse_date (du : String → Option Int) (s : String) : Except Unit (Option Int) :=
  if s = "" then .ok none
  else
    match tryStrptimeFormats s with
    | some t => .ok (some t)
    | none =>
      match du s with
      | some t => .ok (some t)
      | none => .error ()

/-- Embeds `DAYS_RECENCY` from `prezzi_csv.py`. -/
def DAYS_RECENCY : Int := 7

/-- Embeds `_is_recent` from `prezzi_csv.py`; `now` (the call to `datetime.now`)
is passed explicitly. -/
def is_recent (now : Int) (dt : Option Int) : Bool :=
  match dt with
  | none => false
  | some t => decide (now - DAYS_RECENCY * 86400 ≤ t)

/-! ## CSV column constants from `prezzi_csv.py` -/

def PREZZI_MIN_COLS : Nat := 5
def PRICE_IDX : Nat := 2
def SELF_IDX : Nat := 3
def DATE_IDX : Nat := 4
def LAT_IDX : Nat := 8
def LON_IDX : Nat := 9
def GESTORE_IDX : Nat := 2
def ADDR_IDX_START : Nat := 5
def ADDR_IDX_END : Nat := 8
def MIN_CSV_COLUMNS : Nat := 2

/-! ## `_detect_delimiter` -/

/-- The candidate list `["|", ";", ",", "\t"]`. -/
def CSV_DELIM_CANDIDATES : List String := ["|", ";", ",", "\t"]

/-- The candidate fold of `_detect_delimiter`: starting from the default
`("|", 0)`, each candidate whose header split yields strictly more columns
than the best so far replaces it. -/
def detectBest (header : String) : String × Nat :=
  CSV_DELIM_CANDIDATES.foldl
    (fun (b : String × Nat) d =>
      if b.2 < (pySplit header d).length then (d, (pySplit header d).length) else b)
    ("|", 0)

/-- Embeds `_detect_delimiter` from `prezzi_csv.py`.  `sniff` abstracts
`csv.Sniffer().sniff(...)` over the 5-line sample (`none` models the
exception it raises on failure).  The `default` parameter is `"|"` at every
call site and is inlined. -/
def _detect_delimiter (sniff : String → Option String) (csvText : String) : String :=
  match (pySplitlines csvText).filter (fun ln => pyStrip ln ≠ "") with
  | [] => "|"
  | header :: rest =>
    if MIN_CSV_COLUMNS ≤ (detectBest header).2 then (detectBest header).1
    else
      match sniff (joinWith "\n" ((header :: rest).take 5)) with
      | some d => d
      | none => "|"

/-- Strip a UTF-8 BOM or its ISO-8859-1 mis-decoding, as both CSV parsers
do on entry. -/
def stripBom (s : String) : String :=
  if "﻿".data.isPrefixOf s.data then String.mk (s.data.drop 1)
  else if "ï»¿".data.isPrefixOf s.data then String.mk (s.data.drop 3)
  else s

/-- Embeds `csv.reader(csv_text.splitlines(), delimiter=d)` for unquoted fields:
each line split on the delimiter. -/
def csvRows (delim : String) (text : String) : List (List String) :=
  (pySplitlines text).map (fun ln => pySplit ln delim)

/-- Embeds `rows[1:]` — the data rows after the header. -/
def csvDataRows (delim : String) (text : String) : List (List String) :=
  (csvRows delim text).drop 1

/-! ## Data model (`CombinedDataset`) -/

/-- One entry of a station's `prezzi` map, as built by `_parse_prezzi`. -/
structure PriceInfo where
  prezzo : ℚ
  self : Bool
  data : String
deriving DecidableEq, Repr

/-- One station record of the combined dataset.  The coordinates are
`Option` because the filter also runs on cache-loaded JSON where they may be
null/absent; `_parse_anagrafica` always stores them as `some`. -/
structure StationData where
  gestore : String
  indirizzo : String
  latitudine : Option ℚ
  longitudine : Option ℚ
  prezzi : List (String × PriceInfo)
deriving DecidableEq, Repr

/-- Embeds `CombinedDataset`: station id → station record, insertion-ordered. -/
abbrev Combined := List (String × StationData)

/-! ## `_parse_anagrafica` -/

/-- The body of the row loop of `_parse_anagrafica`; `fl` abstracts Python
`float(...)` (with `none` for the exception on unparseable input). -/
def _parse_anagrafica_step (fl : String → Option ℚ) (data : Combined) (row : List String) : Combined :=
  if row = [] ∨ row.length ≤ LON_IDX then data
  else
    let idImpianto := pyStrip (row.headD "")
    if idImpianto = "" ∨ ¬ pyIsdigit idImpianto then data
    else
      match fl (pyCommaToDot (row.getD LAT_IDX "")), fl (pyCommaToDot (row.getD LON_IDX "")) with
      | some lat, some lon =>
        let indirizzo :=
          pyStrip (joinWith " "
            (((row.drop ADDR_IDX_START).take (ADDR_IDX_END - ADDR_IDX_START)).filter (fun f => f ≠ "")))
        dictInsert idImpianto ⟨row.getD GESTORE_IDX "", indirizzo, some lat, some lon, []⟩ data
      | _, _ => data

/-- The shared preamble of `_parse_anagrafica` and `_parse_prezzi`:
strip the BOM, pick the delimiter (`force_delimiter or
_detect_delimiter(...)`), split into data rows. -/
def csvParseRows (sniff : String → Option String) (csvText : String)
    (forceDelimiter : Option String) : List (List String) :=
  csvDataRows (pyOrStr forceDelimiter (_detect_delimiter sniff (stripBom csvText)))
    (stripBom csvText)

/-- Embeds `_parse_anagrafica` from `prezzi_csv.py`. -/
def _parse_anagrafica (fl : String → Option ℚ) (sniff : String → Option String)
    (csvText : String) (forceDelimiter : Option String) : Combined :=
  (csvParseRows sniff csvText forceDelimiter).foldl (_parse_anagrafica_step fl) []

/-! ## `_parse_prezzi` -/

/-- The candidate tuple `("benzina", "gasolio", "diesel", "gpl", "metano")`
of `_parse_prezzi`. -/
def CANONICAL_FUEL_CANDIDATES : List String :=
  ["benzina", "gasolio", "diesel", "gpl", "metano"]

/-- The canonical fuel key computed by `_parse_prezzi` for a raw
(stripped, lower-cased) fuel text: first candidate occurring as a substring,
normalized; otherwise `normalize_fuel_type(fuel_raw) or fuel_raw`. -/
def canonicalFuelKey (fuelRaw : String) : String :=
  match CANONICAL_FUEL_CANDIDATES.find? (fun c => pyContains fuelRaw c) with
  | some c => normalize_fuel_type c
  | none =>
    let n := normalize_fuel_type fuelRaw
    if n = "" then fuelRaw else n

/-- Embeds `(row[1] or "").strip().lower()`. -/
def prezziFuelRaw (row : List String) : String :=
  pyLower (pyStrip (row.getD 1 ""))

/-- Embeds `(row[PRICE_IDX] or "").replace(",", ".")`. -/
def prezziPriceRaw (row : List String) : String :=
  pyCommaToDot (row.getD PRICE_IDX "")

/-- Embeds `float(price_raw) if price_raw else None`, `ValueError` → `None`. -/
def prezziPrice (fl : String → Option ℚ) (row : List String) : Option ℚ :=
  if prezziPriceRaw row = "" then none else fl (prezziPriceRaw row)

/-- Embeds `row[0].strip()` of a price row. -/
def prezziRowId (row : List String) : String :=
  pyStrip (row.headD "")

/-- The dict stored by `_parse_prezzi` for an adopted row. -/
def mkPriceInfo (p : ℚ) (row : List String) : PriceInfo :=
  ⟨p, row.getD SELF_IDX "" == "1", row.getD DATE_IDX ""⟩

/-- The body of the row loop of `_parse_prezzi`. -/
def _parse_prezzi_step (fl : String → Option ℚ) (data : Combined) (row : List String) : Combined :=
  if row = [] ∨ row.length ≤ PREZZI_MIN_COLS - 1 then data
  else
    let idImpianto := prezziRowId row
    match dictFind data idImpianto with
    | none => data
    | some station =>
      let canonical := canonicalFuelKey (prezziFuelRaw row)
      match prezziPrice fl row with
      | none => data
      | some price =>
        match dictFind station.prezzi canonical with
        | none =>
          dictUpdate idImpianto
            (fun st => { st with prezzi := dictInsert canonical (mkPriceInfo price row) st.prezzi }) data
        | some existing =>
          if price < existing.prezzo then
            dictUpdate idImpianto
              (fun st => { st with prezzi := dictInsert canonical (mkPriceInfo price row) st.prezzi }) data
          else data

/-- Embeds `_parse_prezzi` from `prezzi_csv.py` (returns the mutated dataset). -/
def _parse_prezzi (fl : String → Option ℚ) (sniff : String → Option String)
    (csvText : String) (data : Combined) (forceDelimiter : Option String) : Combined :=
  (csvParseRows sniff csvText forceDelimiter).foldl (_parse_prezzi_step fl) data

/-- Embeds `_parse_and_combine_sync` from `prezzi_csv.py`. -/
def _parse_and_combine_sync (fl : String → Option ℚ) (sniff : String → Option String)
    (anagText prezziText : String) (forceDelimiter : Option String) : Combined :=
  _parse_prezzi fl sniff prezziText (_parse_anagrafica fl sniff anagText forceDelimiter) forceDelimiter

/-! ## `_filter_and_transform_combined` -/

/-- Embeds `StationSearchParams` from `models.py`. -/
structure StationSearchParams where
  latitude : ℚ
  longitude : ℚ
  distance : Int
  fuel : String
  results : Int
deriving DecidableEq, Repr

/-- One station dict of the list returned by
`_filter_and_transform_combined`. -/
structure StationOut where
  gestore : String
  indirizzo : String
  prezzo : ℚ
  self : Bool
  data : String
  distanza : Option ℚ
  latitudine : ℚ
  longitudine : ℚ
deriving DecidableEq, Repr

/-- The four exclusion counters of `_filter_and_transform_combined`. -/
structure FilterCounts where
  noPrice : Nat
  stale : Nat
  invalidCoords : Nat
  outOfDistance : Nat
deriving DecidableEq, Repr

/-- Embeds `round(q * 100)` with Python's round-half-to-even, on exact rationals,
computed on numerator/denominator. -/
def pyRoundHalfEven100 (q : ℚ) : Int :=
  let n := q.num * 100
  let d : Int := (q.den : Int)
  let f := Int.fdiv n d
  let r := n - d * f
  if d < 2 * r then f + 1
  else if 2 * r < d then f
  else if f % 2 = 0 then f else f + 1

/-- Python `round(q, 2)` modelled exactly on rationals. -/
def pyRound2 (q : ℚ) : ℚ :=
  mkRat (pyRoundHalfEven100 q) 100

/-- Comparison on sort keys where `none` plays `float("inf")`. -/
def keyLe : Option ℚ → Option ℚ → Bool
  | some a, some b => decide (a ≤ b)
  | some _, none => true
  | none, some _ => false
  | none, none => true

/-- Insert into an ascending-sorted list, after any equal keys (so the
enclosing sort is stable, like Python's `list.sort`). -/
def insertSortedBy {α : Type} (key : α → Option ℚ) (x : α) : List α → List α
  | [] => [x]
  | y :: rest =>
    if keyLe (key y) (key x) then y :: insertSortedBy key x rest else x :: y :: rest

/-- Python `list.sort(key=...)`: stable ascending sort. -/
def sortBy {α : Type} (key : α → Option ℚ) (l : List α) : List α :=
  l.foldl (fun acc x => insertSortedBy key x acc) []

/-- Embeds `s.get("prezzo", float("inf"))` — `prezzo` is always present in the
dicts this list holds. -/
def stationSortKey (s : StationOut) : Option ℚ :=
  some s.prezzo

/-- Embeds `normalize_fuel_type(params.fuel) if params and params.fuel else ""`. -/
def filterFuel (pOpt : Option StationSearchParams) : String :=
  match pOpt with
  | some p => if p.fuel ≠ "" then normalize_fuel_type p.fuel else ""
  | none => ""

/-- Embeds `int(params.results) if params else 5`. -/
def filterResultsMax (pOpt : Option StationSearchParams) : Int :=
  match pOpt with
  | some p => p.results
  | none => 5

/-- The station dict appended by the filter loop. -/
def mkStationOut (station : StationData) (priceInfo : PriceInfo)
    (dist : Option ℚ) (lat lon : ℚ) : StationOut :=
  ⟨station.gestore, station.indirizzo, priceInfo.prezzo, priceInfo.self,
   priceInfo.data, dist.map pyRound2, lat, lon⟩

/-- The `for station in combined.values()` loop of
`_filter_and_transform_combined`, accumulating the surviving stations (in
iteration order) and the four exclusion counters.  `du` is the
`dateutil` fallback of `_parse_date` (whose exception propagates out of the
whole loop, hence `Except`); `now` the clock; `hav` abstracts
`_haversine_km`. -/
def _filter_loop (du : String → Option Int) (now : Int) (hav : ℚ → ℚ → ℚ → ℚ → ℚ)
    (pOpt : Option StationSearchParams) (fuelKey : String) :
    List StationData → Except Unit (List StationOut × FilterCounts)
  | [] => .ok ([], ⟨0, 0, 0, 0⟩)
  | station :: rest =>
    if fuelKey = "" then
      (_filter_loop du now hav pOpt fuelKey rest).map
        (fun r => (r.1, { r.2 with noPrice := r.2.noPrice + 1 }))
    else
      match dictFind station.prezzi fuelKey with
      | none =>
        (_filter_loop du now hav pOpt fuelKey rest).map
          (fun r => (r.1, { r.2 with noPrice := r.2.noPrice + 1 }))
      | some priceInfo =>
        match parse_date du priceInfo.data with
        | .error e => .error e
        | .ok dt =>
          if ¬ is_recent now dt then
            (_filter_loop du now hav pOpt fuelKey rest).map
              (fun r => (r.1, { r.2 with stale := r.2.stale + 1 }))
          else
            match station.latitudine, station.longitudine with
            | some lat, some lon =>
              (match pOpt with
               | some p =>
                 let dist := hav p.latitude p.longitude lat lon
                 if (p.distance : ℚ) < dist then
                   (_filter_loop du now hav pOpt fuelKey rest).map
                     (fun r => (r.1, { r.2 with outOfDistance := r.2.outOfDistance + 1 }))
                 else
                   (_filter_loop du now hav pOpt fuelKey rest).map
                     (fun r => (mkStationOut station priceInfo (some dist) lat lon :: r.1, r.2))
               | none =>
                 (_filter_loop du now hav pOpt fuelKey rest).map
                   (fun r => (mkStationOut station priceInfo none lat lon :: r.1, r.2)))
            | _, _ =>
              (_filter_loop du now hav pOpt fuelKey rest).map
                (fun r => (r.1, { r.2 with invalidCoords := r.2.invalidCoords + 1 }))

/-- The filter pass over `combined.values()`, with the exclusion counters. -/
def _filter_and_transform_core (du : String → Option Int) (now : Int)
    (hav : ℚ → ℚ → ℚ → ℚ → ℚ) (combined : Combined)
    (pOpt : Option StationSearchParams) : Except Unit (List StationOut × FilterCounts) :=
  _filter_loop du now hav pOpt (filterFuel pOpt) (combined.map Prod.snd)

/-- Embeds `stations[: max(1, min(max_items, len(stations)))]`. -/
def pyTrunc {α : Type} (maxItems : Int) (l : List α) : List α :=
  l.take ((max 1 (min maxItems (l.length : Int))).toNat)

/-- Embeds `_filter_and_transform_combined` from `prezzi_csv.py`: the surviving
stations, sorted ascending by price and truncated.  The exclusion counters
are computed (and logged) by the source but are not part of its return
value. -/
def _filter_and_transform_combined (du : String → Option Int) (now : Int)
    (hav : ℚ → ℚ → ℚ → ℚ → ℚ) (combined : Combined)
    (pOpt : Option StationSearchParams) : Except Unit (List StationOut) :=
  (_filter_and_transform_core du now hav combined pOpt).map
    (fun r => pyTrunc (filterResultsMax pOpt) (sortBy stationSortKey r.1))

/-! ## `src/services/fuel_api.py` — `parse_and_normalize_stations` -/

/-- Embeds `MAX_RESULTS_COUNT` from `models.py`. -/
def MAX_RESULTS_COUNT : Int := 20

/-- Embeds `Station` from `models.py` (fuel prices as type/price pairs). -/
structure Station where
  id : String
  address : String
  latitude : ℚ
  longitude : ℚ
  fuel_prices : List (String × ℚ)
  distance : Option ℚ
deriving DecidableEq, Repr

/-- Embeds `s.fuel_prices[0].price if s.fuel_prices else float("inf")`. -/
def stationKey (s : Station) : Option ℚ :=
  match s.fuel_prices with
  | [] => none
  | fp :: _ => some fp.2

/-- Embeds `parse_and_normalize_stations` from `fuel_api.py`, on the station-dict
list produced by the CSV pipeline (each entry is a dict, and its typed
fields make the `float(...)` coercions identities and the
`ValueError`/`TypeError` skip branch unreachable; `data.get("latitudine")
or 0.0` is the identity on a rational that is present, since `0.0 or 0.0`
is `0.0`).  `pansStep` is the body of the `for idx, data in payload_iter`
loop: a station at exactly `(0.0, 0.0)` is skipped and counted, any other
is appended as a normalized `Station`. -/
def pansStep (fuelType : String) (acc : List Station × Nat)
    (idxData : Nat × StationOut) : List Station × Nat :=
  if idxData.2.latitudine = 0 ∧ idxData.2.longitudine = 0 then (acc.1, acc.2 + 1)
  else
    (acc.1 ++ [⟨toString idxData.1, idxData.2.indirizzo, idxData.2.latitudine,
                idxData.2.longitudine, [(fuelType, idxData.2.prezzo)], none⟩], acc.2)

/-- Embeds `parse_and_normalize_stations` from `fuel_api.py`: the loop over the
payload, then the stable sort by the first fuel price and the truncation to
`max(1, min(results_limit, MAX_RESULTS_COUNT))`.  Returns the normalized
stations and the skip count. -/
def parse_and_normalize_stations (payload : List StationOut) (fuelType : String)
    (resultsLimit : Int) : List Station × Nat :=
  let r := payload.enum.foldl (pansStep fuelType) ([], 0)
  ((sortBy stationKey r.1).take ((max 1 (min resultsLimit MAX_RESULTS_COUNT)).toNat), r.2)

/-! ## Cache decision in `fetch_and_combine_csv_data` -/

/-- The on-disk cache file as the pipeline can observe it: absent, present
but not valid JSON, or a parsed JSON object. -/
inductive CacheState where
  | missing
  | corrupt
  | valid (d : Combined)
deriving DecidableEq

/-- Embeds `_read_json_file` from `prezzi_csv.py`: `None` when the file does not
exist, `None` when reading/parsing raises (the exception is caught and
logged), otherwise the parsed dataset. -/
def _read_json_file : CacheState → Option Combined
  | .missing => none
  | .corrupt => none
  | .valid d => some d

/-- Where `fetch_and_combine_csv_data` got its dataset. -/
inductive DataSource where
  | cache
  | remote
deriving DecidableEq, Repr

/-- The cache decision of `fetch_and_combine_csv_data`: the cached dataset
is used only when the file is fresh by mtime, loads, and is non-empty
(`len(cached) > 0`). -/
def cachedCombined (fresh : Bool) (cs : CacheState) : Option Combined :=
  if fresh then
    match _read_json_file cs with
    | some cached => if 0 < cached.length then some cached else none
    | none => none
  else none

/-- Embeds `combined is None` after the cache check means the remote fetch of both
CSVs (`_fetch_csvs`) runs. -/
def combinedDataSource (fresh : Bool) (cs : CacheState) : DataSource :=
  match cachedCombined fresh cs with
  | some _ => .cache
  | none => .remote

/-! ## `_fetch_csvs` / `_load_local_csvs` fallback -/

/-- One candidate local directory as `_load_local_csvs` observes it:
the snapshot pair is absent, present but unreadable (reading raises), or
readable. -/
inductive DirContent where
  | missingFiles
  | readError
  | both (anagText prezziText : String)
deriving DecidableEq

/-- The failures `_load_local_csvs` can raise. -/
inductive LocalLoadErr where
  | fileNotFound
  | readFailed
deriving DecidableEq, Repr

/-- Embeds `_load_local_csvs` from `prezzi_csv.py` over the ordered candidate
directories: first directory holding both files wins; a read failure there
re-raises; if no candidate has both files, `FileNotFoundError`. -/
def _load_local_csvs : List DirContent → Except LocalLoadErr (String × String)
  | [] => .error .fileNotFound
  | .both a p :: _ => .ok (a, p)
  | .readError :: _ => .error .readFailed
  | .missingFiles :: rest => _load_local_csvs rest

/-- The remote double-download of `_fetch_csvs`: either both payloads
(decoded), or a failure (HTTP status error, network error or other
exception — all three handlers behave identically), identified by an
opaque id. -/
inductive RemoteFetch where
  | success (anagText prezziText : String)
  | failure (err : Nat)
deriving DecidableEq

/-- Embeds `_fetch_csvs` from `prezzi_csv.py`: on remote failure fall back to
`_load_local_csvs`; if that raises anything, re-raise the original
error. -/
def _fetch_csvs : RemoteFetch → List DirContent → Except Nat (String × String)
  | .success a p, _ => .ok (a, p)
  | .failure e, dirs =>
    match _load_local_csvs dirs with
    | .ok r => .ok r
    | .error _ => .error e

/-! ## `src/services/geocoding.py` -/

/-- Embeds `ALIASES` from `geocoding.py`. -/
def ALIASES : List (String × String) :=
  [("florence", "firenze"), ("firenze", "firenze")]

/-- Embeds `normalize_city_input` from `geocoding.py`. -/
def normalize_city_input (city : String) : String :=
  let c := pyLower (pyStrip city)
  (dictFind ALIASES c).getD c

/-- The upstream interaction of one `geocode_city` call: a JSON candidate,
an empty candidate list, an HTTP status error (with the `Retry-After`
header when present), or a transport error. -/
inductive GeoResponse where
  | success (lat lon : ℚ)
  | emptyResults
  | statusError (code : Nat) (retryAfter : Option String)
  | requestError
deriving DecidableEq

/-- Embeds `geocode_city` from `geocoding.py`.  `localCoords` is the loaded
`cities.json` table, `cache` the geocoding cache.  The first component is
the returned coordinates or the raised `HTTPException` status code; the
second is the number of seconds slept honouring `Retry-After` (if any). -/
def geocode_city (localCoords : List (String × (ℚ × ℚ)))
    (cache : List (String × (ℚ × ℚ))) (city : String) (resp : GeoResponse) :
    Except Nat (ℚ × ℚ) × Option Int :=
  let normalizedCity := normalize_city_input city
  match dictFind cache normalizedCity with
  | some cached => (.ok cached, none)
  | none =>
    match resp with
    | .success lat lon => (.ok (lat, lon), none)
    | .emptyResults => (.error 404, none)
    | .statusError code retryAfter =>
      if code = 429 ∨ code = 509 then
        let slept : Option Int :=
          match retryAfter with
          | some ra => if ra ≠ "" then pyInt ra else none
          | none => none
        match dictFind localCoords normalizedCity with
        | some coords => (.ok coords, slept)
        | none => (.error 503, slept)
      else (.error (if code = 0 then 502 else code), none)
    | .requestError =>
      match dictFind localCoords normalizedCity with
      | some coords => (.ok coords, none)
      | none => (.error 503, none)

/-! ## Specification-side definitions (from the spec's words, for
comparison with the source) -/

/-- Modelled from the spec: "the station id column must parse as a
**positive** integer" — a decimal literal with value strictly greater than
zero. -/
def specParsesAsPositiveInt (s : String) : Bool :=
  match pyNat? s with
  | some n => decide (0 < n)
  | none => false

/-- The guard of the `_parse_prezzi` row loop as a Boolean. -/
def prezziRowGuard (row : List String) : Bool :=
  !(row.isEmpty || decide (row.length ≤ PREZZI_MIN_COLS - 1))

/-- Does a price row target station `id` and fuel key `k`? -/
def prezziRowMatches (id k : String) (row : List String) : Bool :=
  prezziRowGuard row && prezziRowId row == id && canonicalFuelKey (prezziFuelRaw row) == k

/-- The rows targeting `(id, k)` whose price parses, paired with the parsed
price. -/
def matchingPairs (fl : String → Option ℚ) (id k : String)
    (rows : List (List String)) : List (List String × ℚ) :=
  rows.filterMap (fun row =>
    if prezziRowMatches id k row then (prezziPrice fl row).map (fun p => (row, p)) else none)

/-- Embeds `min` on ℚ, kept as an explicit definition. -/
def minQ (a b : ℚ) : ℚ :=
  if a ≤ b then a else b

/-- Minimum of a price list. -/
def minPrice? : List ℚ → Option ℚ
  | [] => none
  | p :: rest =>
    match minPrice? rest with
    | none => some p
    | some m => some (minQ p m)

/-- The per-row accumulator update of the `_parse_prezzi` loop restricted to
one `(station, fuel)` entry. -/
def oneKeyUpdate (fl : String → Option ℚ) (id k : String)
    (acc : Option PriceInfo) (row : List String) : Option PriceInfo :=
  if prezziRowMatches id k row then
    match prezziPrice fl row with
    | some p =>
      match acc with
      | none => some (mkPriceInfo p row)
      | some existing => if p < existing.prezzo then some (mkPriceInfo p row) else acc
    | none => acc
  else acc

/-- The `_parse_prezzi` loop projected to one `(station, fuel)` entry. -/
def oneKeyFold (fl : String → Option ℚ) (id k : String)
    (rows : List (List String)) (acc : Option PriceInfo) : Option PriceInfo :=
  rows.foldl (oneKeyUpdate fl id k) acc

/-- The `(id, k)` price entry of a combined dataset. -/
def priceEntry (data : Combined) (id k : String) : Option PriceInfo :=
  match dictFind data id with
  | none => none
  | some st => dictFind st.prezzi k

/-! ## Concrete instances for witnesses and counterexamples -/

/-- A concrete float parser for witnesses: plain non-negative decimal
literals (`"45"`, `"45.5"`). -/
def floatLit (s : String) : Option ℚ :=
  match pySplit s "." with
  | [ip] => (pyNat? ip).map (fun n => mkRat (n : Int) 1)
  | [ip, fp] =>
    match pyNat? ip, pyNat? fp with
    | some n, some f =>
      some (mkRat ((n : Int) * ((10 : Nat) ^ fp.data.length : Nat) + (f : Int)) ((10 : Nat) ^ fp.data.length))
    | _, _ => none
  | _ => none

/-- A sniffer that always fails (for witnesses). -/
def sniffNone : String → Option String := fun _ => none

/-- A dateutil oracle that always raises (for witnesses). -/
def duNone : String → Option Int := fun _ => none

/-- A haversine oracle that returns distance zero (for witnesses). -/
def havZero : ℚ → ℚ → ℚ → ℚ → ℚ := fun _ _ _ _ => 0

example : normalize_fuel_type "GPL" = "GPL" := by decide
example : normalize_fuel_type "Diesel" = "gasolio" := by decide
example : pyContains "benzina senza piombo" "benzina" = true := by decide
example : pySplitlines "a\nb\n" = ["a", "b"] := by decide
example : (pySplit "a|b|c" "|").length = 3 := by decide
example : pyCommaToDot "1,5" = "1.5" := by decide
example : pyStrip "  x " = "x" := by decide
example : pyInt " 12 " = some 12 := by decide
example : pyIsdigit "007" = true := by decide
example : floatLit "1.5" = some (mkRat 3 2) := by decide
example : tryStrptimeFormats "01/01/2026" = some (20454 * 86400) := by decide
example : tryStrptimeFormats "02/01/2026 10:30:00" = some (20455 * 86400 + 37800) := by decide
example : specParsesAsPositiveInt "0" = false := by decide
example : normalize_city_input "  Florence " = "firenze" := by decide

/-! ## Witness inputs -/

/-- A registry-only station used by witnesses. -/
def wAnagStation : StationData :=
  ⟨"G", "A", some 1, some 1, []⟩

/-- A one-station combined dataset used by witnesses. -/
def wCombined : Combined :=
  [("1", ⟨"G", "Via Roma 1", some (mkRat 45 1), some (mkRat 9 1),
          [("benzina", ⟨mkRat 3 2, true, "02/01/2026"⟩)]⟩)]

/-- Witness search parameters. -/
def wParams : StationSearchParams :=
  ⟨mkRat 45 1, mkRat 9 1, 10, "benzina", 5⟩

/-- Witness clock: 2026-01-02 00:00:00 UTC. -/
def wNow : Int := 20455 * 86400

/-- The station dict the filter returns on the witness inputs. -/
def wOut : StationOut :=
  ⟨"G", "Via Roma 1", mkRat 3 2, true, "02/01/2026", some (mkRat 0 100),
   mkRat 45 1, mkRat 9 1⟩

/-- A price CSV with duplicate rows for one station/fuel (witness for the
merge policy). -/
def wPrezziText : String :=
  "id|fuel|price|self|date\n1|benzina|2|1|01/01/2026\n1|benzina|3|0|02/01/2026\n1|benzina|x|0|03/01/2026"

/-- A registry CSV whose data row has station id `0` (counterexample input). -/
def wAnagText : String :=
  "c1|c2|c3|c4|c5|c6|c7|c8|c9|c10\n0|x|Gest|x|x|Via|Roma|1|45,5|9,2"

/-- A semicolon-delimited text (witness for delimiter detection). -/
def wSemiText : String := "a;b;c\nx;y;z"

/-- Local fallback coordinates for the geocoding witness (Scenario D). -/
def wLocalCoords : List (String × (ℚ × ℚ)) :=
  [("firenze", (mkRat 4377 100, mkRat 1125 100))]

/-- A one-station dataset whose station has no price entries (the filter
excludes it with reason no-price). -/
def wNoPrezziCombined : Combined :=
  [("1", ⟨"G", "A", some 1, some 1, []⟩)]

/-! # Theorems -/

/-! ## Generic helper lemmas -/

lemma except_map_ok {α β γ : Type} {f : α → β} {e : Except γ α} {b : β}
    (h : e.map f = .ok b) : ∃ a, e = .ok a ∧ b = f a := by
  cases e with
  | error err => simp [Except.map] at h
  | ok a => exact ⟨a, rfl, by simpa [Except.map] using h.symm⟩

lemma dictFind_mem {α : Type} {l : List (String × α)} {k : String} {v : α}
    (h : dictFind l k = some v) : (k, v) ∈ l := by
  induction l with
  | nil => simp [dictFind] at h
  | cons p rest ih =>
    cases p with
    | mk k' v' =>
      rw [dictFind] at h
      by_cases hk : k' = k
      · subst hk
        simp at h
        simp [h]
      · rw [if_neg hk] at h
        exact List.mem_cons_of_mem _ (ih h)

lemma dictFind_dictInsert_self {α : Type} (l : List (String × α)) (k : String) (v : α) :
    dictFind (dictInsert k v l) k = some v := by
  induction l with
  | nil => simp [dictInsert, dictFind]
  | cons p rest ih =>
    cases p with
    | mk k' v' =>
      by_cases hk : k' = k
      · subst hk; simp [dictInsert, dictFind]
      · simp [dictInsert, dictFind, hk, ih]

lemma dictFind_dictInsert_ne {α : Type} (l : List (String × α)) {k' k : String} (v : α)
    (h : k' ≠ k) : dictFind (dictInsert k' v l) k = dictFind l k := by
  induction l with
  | nil => simp [dictInsert, dictFind, h]
  | cons p rest ih =>
    cases p with
    | mk k0 v0 =>
      by_cases hk : k0 = k'
      · subst hk; simp [dictInsert, dictFind, h]
      · simp [dictInsert, dictFind, hk, ih]

lemma dictFind_dictUpdate_self {α : Type} (l : List (String × α)) (k : String) (f : α → α) :
    dictFind (dictUpdate k f l) k = (dictFind l k).map f := by
  induction l with
  | nil => simp [dictUpdate, dictFind]
  | cons p rest ih =>
    cases p with
    | mk k0 v0 =>
      by_cases hk : k0 = k
      · subst hk; simp [dictUpdate, dictFind]
      · simp [dictUpdate, dictFind, hk, ih]

lemma dictFind_dictUpdate_ne {α : Type} (l : List (String × α)) {k' k : String} (f : α → α)
    (h : k' ≠ k) : dictFind (dictUpdate k' f l) k = dictFind l k := by
  induction l with
  | nil => simp [dictUpdate, dictFind]
  | cons p rest ih =>
    cases p with
    | mk k0 v0 =>
      by_cases hk : k0 = k'
      · subst hk; simp [dictUpdate, dictFind, h]
      · simp [dictUpdate, dictFind, hk, ih]

/-! ## Lower-casing and `normalize_fuel_type` -/

lemma lowerTable_snd_not_key : ∀ p ∈ LOWER_TABLE, LOWER_TABLE.find? (fun q => q.1 = p.2) = none := by
  decide

lemma pyLowerChar_idem (c : Char) : pyLowerChar (pyLowerChar c) = pyLowerChar c := by
  cases h : LOWER_TABLE.find? (fun p => p.1 = c) with
  | none => simp [pyLowerChar, h]
  | some p =>
    have hmem : p ∈ LOWER_TABLE := List.mem_of_find?_eq_some h
    simp [pyLowerChar, h, lowerTable_snd_not_key p hmem]

lemma map_pyLowerChar_idem (l : List Char) :
    (l.map pyLowerChar).map pyLowerChar = l.map pyLowerChar := by
  induction l with
  | nil => rfl
  | cons c rest ih => simp [ih, pyLowerChar_idem]

lemma pyLower_idem (s : String) : pyLower (pyLower s) = pyLower s := by
  unfold pyLower
  exact congrArg String.mk (map_pyLowerChar_idem s.data)

lemma string_empty_iff_data {s : String} : s = "" ↔ s.data = [] := by
  constructor
  · intro h; subst h; rfl
  · intro h
    cases s with
    | mk d =>
      simp only at h
      subst h
      rfl

lemma pyLower_eq_empty_iff (s : String) : pyLower s = "" ↔ s = "" := by
  rw [string_empty_iff_data, string_empty_iff_data (s := s)]
  simp [pyLower]

lemma normalize_fuel_type_eq_empty {s : String} (h : normalize_fuel_type s = "") : s = "" := by
  by_contra hs
  rw [normalize_fuel_type, if_neg hs] at h
  cases hfind : dictFind FUEL_TYPE_MAPPING (pyLower s) with
  | some v =>
    rw [hfind] at h
    simp at h
    have hvals : ∀ p ∈ FUEL_TYPE_MAPPING, p.2 ≠ "" := by decide
    exact hvals _ (dictFind_mem hfind) h
  | none =>
    rw [hfind] at h
    simp at h
    exact hs ((pyLower_eq_empty_iff s).mp h)

lemma fuelMapping_vals_fixed :
    ∀ p ∈ FUEL_TYPE_MAPPING, normalize_fuel_type p.2 = p.2 := by
  decide

lemma normalize_fuel_type_idem (s : String) :
    normalize_fuel_type (normalize_fuel_type s) = normalize_fuel_type s := by
  by_cases hs : s = ""
  · subst hs; rfl
  · cases hfind : dictFind FUEL_TYPE_MAPPING (pyLower s) with
    | some v =>
      have h1 : normalize_fuel_type s = v := by
        simp [normalize_fuel_type, hs, hfind]
      rw [h1]
      exact fuelMapping_vals_fixed _ (dictFind_mem hfind)
    | none =>
      have h1 : normalize_fuel_type s = pyLower s := by
        simp [normalize_fuel_type, hs, hfind]
      rw [h1]
      by_cases ht : pyLower s = ""
      · rw [ht]; rfl
      · simp [normalize_fuel_type, ht, pyLower_idem, hfind]

lemma canonicalFuelKey_fixed (raw : String) :
    normalize_fuel_type (canonicalFuelKey raw) = canonicalFuelKey raw := by
  rw [canonicalFuelKey]
  cases hf : CANONICAL_FUEL_CANDIDATES.find? (fun c => pyContains raw c) with
  | some c => exact normalize_fuel_type_idem c
  | none =>
    by_cases hn : normalize_fuel_type raw = ""
    · simp only [hn, if_pos rfl]
      have hr := normalize_fuel_type_eq_empty hn
      rw [hr]; rfl
    · simp only [if_neg hn]
      exact normalize_fuel_type_idem raw

lemma filterFuel_some (p : StationSearchParams) :
    filterFuel (some p) = normalize_fuel_type p.fuel := by
  by_cases h : p.fuel = ""
  · simp [filterFuel, h, normalize_fuel_type]
  · simp [filterFuel, h]

/-- C10: `normalize_fuel_type` is idempotent; the key `_parse_prezzi` stores
(`canonicalFuelKey`) is a fixed point of `normalize_fuel_type`, and the key
`_filter_and_transform_combined` looks up is `normalize_fuel_type` of the
user's fuel input — so a user input agreeing with a stored canonical kind
normalizes to exactly the stored key; the canonical key for GPL is the
upper-case `"GPL"`, while the other canonical kinds are lower-case. -/
theorem normalize_fuel_type_idempotent_and_keys_agree :
    (∀ s, normalize_fuel_type (normalize_fuel_type s) = normalize_fuel_type s)
    ∧ (∀ raw, normalize_fuel_type (canonicalFuelKey raw) = canonicalFuelKey raw)
    ∧ (∀ p : StationSearchParams, filterFuel (some p) = normalize_fuel_type p.fuel)
    ∧ normalize_fuel_type "gpl" = "GPL"
    ∧ normalize_fuel_type "GPL" = "GPL"
    ∧ normalize_fuel_type "benzina" = "benzina"
    ∧ normalize_fuel_type "diesel" = "gasolio"
    ∧ normalize_fuel_type "gasolio" = "gasolio"
    ∧ normalize_fuel_type "metano" = "metano" :=
  ⟨normalize_fuel_type_idem, canonicalFuelKey_fixed, filterFuel_some,
   by decide, by decide, by decide, by decide, by decide, by decide⟩

/-- C2: a fresh-by-mtime cache whose content is the empty JSON object, or
whose content fails to parse, is not used — the pipeline proceeds to the
remote fetch of both CSVs; and a failing cache read yields `none` (absent)
instead of propagating an exception. -/
theorem cache_empty_or_corrupt_triggers_refetch :
    ∀ fresh : Bool,
      combinedDataSource fresh (CacheState.valid []) = DataSource.remote
      ∧ combinedDataSource fresh CacheState.corrupt = DataSource.remote
      ∧ combinedDataSource fresh CacheState.missing = DataSource.remote
      ∧ _read_json_file CacheState.corrupt = none := by
  decide

lemma load_local_all_missing {dirs : List DirContent}
    (h : ∀ d ∈ dirs, d = DirContent.missingFiles) :
    _load_local_csvs dirs = .error .fileNotFound := by
  induction dirs with
  | nil => rfl
  | cons d rest ih =>
    have hd := h d (List.mem_cons_self d rest)
    subst hd
    rw [_load_local_csvs]
    exact ih (fun d' hd' => h d' (List.mem_cons_of_mem _ hd'))

/-- C3: when the remote fetch of the two CSVs fails, `_fetch_csvs` falls
back to `_load_local_csvs` over the ordered candidate directories; if no
candidate directory holds both snapshot files, the original fetch error (not
the fallback's `FileNotFoundError`) reaches the caller. -/
theorem fetch_fallback_reraises_original_error :
    (∀ (e : Nat) (dirs : List DirContent) (a p : String),
        _load_local_csvs dirs = .ok (a, p) →
        _fetch_csvs (RemoteFetch.failure e) dirs = .ok (a, p))
    ∧ (∀ (e : Nat) (dirs : List DirContent),
        (∀ d ∈ dirs, d = DirContent.missingFiles) →
        _fetch_csvs (RemoteFetch.failure e) dirs = .error e)
    ∧ (∀ (a p : String) (dirs : List DirContent),
        _fetch_csvs (RemoteFetch.success a p) dirs = .ok (a, p)) := by
  refine ⟨?_, ?_, ?_⟩
  · intro e dirs a p h
    simp [_fetch_csvs, h]
  · intro e dirs h
    simp [_fetch_csvs, load_local_all_missing h]
  · intro a p dirs
    rfl

/-- Witness for C3 at concrete inputs. -/
theorem fetch_fallback_witness :
    ((∀ d ∈ [DirContent.missingFiles], d = DirContent.missingFiles)
      ∧ _load_local_csvs [DirContent.both "A" "P"] = .ok ("A", "P"))
    ∧ _fetch_csvs (RemoteFetch.failure 7) [DirContent.missingFiles] = .error 7
    ∧ _fetch_csvs (RemoteFetch.failure 7) [DirContent.both "A" "P"] = .ok ("A", "P") :=
  ⟨⟨by decide, rfl⟩,
   fetch_fallback_reraises_original_error.2.1 7 [DirContent.missingFiles] (by decide),
   fetch_fallback_reraises_original_error.1 7 [DirContent.both "A" "P"] "A" "P" rfl⟩

/-- C6: on a rate-limit response (HTTP 429 or 509) with the city not in the
geocoding cache, `geocode_city` sleeps for the parsed `Retry-After` value
when present and parseable, then answers from the local static coordinate
table without raising when the normalized city has an entry, and surfaces a
503 `ServiceUnavailable` when it does not. -/
theorem geocode_rate_limit_fallback
    (localCoords cache : List (String × (ℚ × ℚ))) (city : String)
    (code : Nat) (ra : Option String)
    (hcode : code = 429 ∨ code = 509)
    (hcache : dictFind cache (normalize_city_input city) = none) :
    (∀ s n, ra = some s → pyInt s = some n →
        (geocode_city localCoords cache city (.statusError code ra)).2 = some n)
    ∧ (∀ c, dictFind localCoords (normalize_city_input city) = some c →
        (geocode_city localCoords cache city (.statusError code ra)).1 = .ok c)
    ∧ (dictFind localCoords (normalize_city_input city) = none →
        (geocode_city localCoords cache city (.statusError code ra)).1 = .error 503) := by
  rcases hcode with hc | hc <;> subst hc <;>
    refine ⟨?_, ?_, ?_⟩ <;>
    first
    | · intro s n hs hn
        subst hs
        have hne : ¬ s = "" := by
          intro h
          subst h
          have hnone : pyInt "" = none := by decide
          rw [hnone] at hn
          simp at hn
        cases hloc : dictFind localCoords (normalize_city_input city) with
        | none => simp [geocode_city, hcache, hloc, hne, hn]
        | some c => simp [geocode_city, hcache, hloc, hne, hn]
    | · intro c hloc
        simp [geocode_city, hcache, hloc]
    | · intro hloc
        simp [geocode_city, hcache, hloc]

/-- Witness for C6 (Scenario D): HTTP 509 with `Retry-After: 1` and a local
table containing `firenze`; `geocode_city "Firenze"` sleeps 1 second and
returns the local coordinates without raising. -/
theorem geocode_rate_limit_witness :
    (((509 : Nat) = 429 ∨ (509 : Nat) = 509)
      ∧ dictFind ([] : List (String × (ℚ × ℚ))) (normalize_city_input "Firenze") = none
      ∧ (geocode_city wLocalCoords [] "Firenze" (.statusError 509 (some "1"))).1 =
          .ok (mkRat 4377 100, mkRat 1125 100)
      ∧ (geocode_city wLocalCoords [] "Firenze" (.statusError 509 (some "1"))).2 = some 1)
    ∧ ((∀ s n, (some "1" : Option String) = some s → pyInt s = some n →
          (geocode_city wLocalCoords [] "Firenze" (.statusError 509 (some "1"))).2 = some n)
       ∧ (∀ c, dictFind wLocalCoords (normalize_city_input "Firenze") = some c →
          (geocode_city wLocalCoords [] "Firenze" (.statusError 509 (some "1"))).1 = .ok c)
       ∧ (dictFind wLocalCoords (normalize_city_input "Firenze") = none →
          (geocode_city wLocalCoords [] "Firenze" (.statusError 509 (some "1"))).1 = .error 503)) :=
  ⟨⟨by decide, by decide, rfl, rfl⟩,
   geocode_rate_limit_fallback wLocalCoords [] "Firenze" 509 (some "1") (by decide) (by decide)⟩

lemma foldBest_fst (cnt : String → Nat) :
    ∀ (l : List String) (b : String × Nat),
      (l.foldl (fun b d => if b.2 < cnt d then (d, cnt d) else b) b).1 = b.1 ∨
      (l.foldl (fun b d => if b.2 < cnt d then (d, cnt d) else b) b).1 ∈ l := by
  intro l
  induction l with
  | nil => intro b; exact Or.inl rfl
  | cons d rest ih =>
    intro b
    rw [List.foldl_cons]
    by_cases hc : b.2 < cnt d
    · rw [if_pos hc]
      rcases ih (d, cnt d) with h | h
      · exact Or.inr (by simp [h])
      · exact Or.inr (List.mem_cons_of_mem _ h)
    · rw [if_neg hc]
      rcases ih b with h | h
      · exact Or.inl h
      · exact Or.inr (List.mem_cons_of_mem _ h)

lemma foldBest_snd (cnt : String → Nat) :
    ∀ (l : List String) (b : String × Nat),
      (l.foldl (fun b d => if b.2 < cnt d then (d, cnt d) else b) b) = b ∨
      (l.foldl (fun b d => if b.2 < cnt d then (d, cnt d) else b) b).2 =
        cnt (l.foldl (fun b d => if b.2 < cnt d then (d, cnt d) else b) b).1 := by
  intro l
  induction l with
  | nil => intro b; exact Or.inl rfl
  | cons d rest ih =>
    intro b
    rw [List.foldl_cons]
    by_cases hc : b.2 < cnt d
    · rw [if_pos hc]
      rcases ih (d, cnt d) with h | h
      · rw [h]; exact Or.inr rfl
      · exact Or.inr h
    · rw [if_neg hc]
      exact ih b

lemma foldBest_le (cnt : String → Nat) :
    ∀ (l : List String) (b : String × Nat),
      b.2 ≤ (l.foldl (fun b d => if b.2 < cnt d then (d, cnt d) else b) b).2 ∧
      ∀ d ∈ l, cnt d ≤ (l.foldl (fun b d => if b.2 < cnt d then (d, cnt d) else b) b).2 := by
  intro l
  induction l with
  | nil => intro b; exact ⟨Nat.le_refl _, by simp⟩
  | cons d rest ih =>
    intro b
    rw [List.foldl_cons]
    by_cases hc : b.2 < cnt d
    · rw [if_pos hc]
      rcases ih (d, cnt d) with ⟨h1, h2⟩
      refine ⟨Nat.le_trans (Nat.le_of_lt hc) h1, ?_⟩
      intro d' hd'
      rcases List.mem_cons.mp hd' with h | h
      · subst h; exact h1
      · exact h2 d' h
    · rw [if_neg hc]
      rcases ih b with ⟨h1, h2⟩
      refine ⟨h1, ?_⟩
      intro d' hd'
      rcases List.mem_cons.mp hd' with h | h
      · subst h; exact Nat.le_trans (Nat.le_of_not_lt hc) h1
      · exact h2 d' h

lemma detectBest_mem (header : String) : (detectBest header).1 ∈ CSV_DELIM_CANDIDATES := by
  rcases foldBest_fst (fun d => (pySplit header d).length) CSV_DELIM_CANDIDATES ("|", 0) with h | h
  · rw [detectBest, h]; decide
  · exact h

lemma detectBest_count (header : String) :
    (detectBest header).2 = (pySplit header (detectBest header).1).length := by
  rcases foldBest_snd (fun d => (pySplit header d).length) CSV_DELIM_CANDIDATES ("|", 0) with h | h
  · have hle := (foldBest_le (fun d => (pySplit header d).length) CSV_DELIM_CANDIDATES ("|", 0)).2
      "|" (by decide)
    rw [h] at hle
    have h0 : (pySplit header "|").length = 0 := Nat.le_zero.mp hle
    rw [detectBest, h]
    exact h0.symm
  · exact h

lemma detectBest_max (header : String) :
    ∀ d ∈ CSV_DELIM_CANDIDATES, (pySplit header d).length ≤ (detectBest header).2 :=
  (foldBest_le (fun d => (pySplit header d).length) CSV_DELIM_CANDIDATES ("|", 0)).2

lemma detect_delimiter_cons {sniff : String → Option String} {text header : String}
    {rest : List String}
    (hlines : (pySplitlines text).filter (fun ln => pyStrip ln ≠ "") = header :: rest) :
    _detect_delimiter sniff text =
      if MIN_CSV_COLUMNS ≤ (detectBest header).2 then (detectBest header).1
      else (sniff (joinWith "\n" ((header :: rest).take 5))).getD "|" := by
  unfold _detect_delimiter
  rw [hlines]
  simp only [List.take_succ_cons]
  cases hs : sniff (joinWith "\n" (header :: rest.take 4)) <;> simp [hs]

/-- C8: delimiter detection splits the header line on each candidate
(`|`, `;`, `,`, tab) and returns a candidate whose column count is maximal,
provided that count is at least `MIN_CSV_COLUMNS = 2`; when no candidate
reaches 2 columns it defers to the multi-line sniffer, defaulting to `"|"`
when the sniffer also fails (and to `"|"` when the text has no non-blank
line); a non-empty caller-forced delimiter bypasses detection entirely. -/
theorem detect_delimiter_spec (sniff : String → Option String) (text : String) :
    (∀ header rest,
        (pySplitlines text).filter (fun ln => pyStrip ln ≠ "") = header :: rest →
        ((∃ d ∈ CSV_DELIM_CANDIDATES, MIN_CSV_COLUMNS ≤ (pySplit header d).length) →
            _detect_delimiter sniff text ∈ CSV_DELIM_CANDIDATES
            ∧ MIN_CSV_COLUMNS ≤ (pySplit header (_detect_delimiter sniff text)).length
            ∧ ∀ d ∈ CSV_DELIM_CANDIDATES,
                (pySplit header d).length ≤ (pySplit header (_detect_delimiter sniff text)).length)
        ∧ ((∀ d ∈ CSV_DELIM_CANDIDATES, (pySplit header d).length < MIN_CSV_COLUMNS) →
            _detect_delimiter sniff text = (sniff (joinWith "\n" ((header :: rest).take 5))).getD "|"))
    ∧ ((pySplitlines text).filter (fun ln => pyStrip ln ≠ "") = [] →
        _detect_delimiter sniff text = "|")
    ∧ (∀ (f : String), f ≠ "" →
        pyOrStr (some f) (_detect_delimiter sniff text) = f
        ∧ csvParseRows sniff text (some f) = csvDataRows f (stripBom text)) := by
  refine ⟨?_, ?_, ?_⟩
  · intro header rest hlines
    rw [detect_delimiter_cons hlines]
    constructor
    · intro hex
      rcases hex with ⟨d, hd, hcount⟩
      have hbig : MIN_CSV_COLUMNS ≤ (detectBest header).2 :=
        Nat.le_trans hcount (detectBest_max header d hd)
      rw [if_pos hbig]
      exact ⟨detectBest_mem header, by rw [← detectBest_count]; exact hbig,
        fun d' hd' => by rw [← detectBest_count]; exact detectBest_max header d' hd'⟩
    · intro hall
      have hsmall : ¬ MIN_CSV_COLUMNS ≤ (detectBest header).2 := by
        rw [detectBest_count]
        exact Nat.not_le_of_lt (hall _ (detectBest_mem header))
      rw [if_neg hsmall]
  · intro hempty
    unfold _detect_delimiter
    rw [hempty]
  · intro f hf
    refine ⟨by simp [pyOrStr, hf], ?_⟩
    simp only [csvParseRows, pyOrStr, if_neg hf]

/-- Witness for C8 at a concrete semicolon-delimited text. -/
theorem detect_delimiter_witness :
    ((pySplitlines wSemiText).filter (fun ln => pyStrip ln ≠ "") = ["a;b;c", "x;y;z"]
      ∧ (∃ d ∈ CSV_DELIM_CANDIDATES, MIN_CSV_COLUMNS ≤ (pySplit "a;b;c" d).length)
      ∧ _detect_delimiter sniffNone wSemiText = ";")
    ∧ (_detect_delimiter sniffNone wSemiText ∈ CSV_DELIM_CANDIDATES
      ∧ MIN_CSV_COLUMNS ≤ (pySplit "a;b;c" (_detect_delimiter sniffNone wSemiText)).length
      ∧ ∀ d ∈ CSV_DELIM_CANDIDATES,
          (pySplit "a;b;c" d).length ≤ (pySplit "a;b;c" (_detect_delimiter sniffNone wSemiText)).length) :=
  ⟨⟨by decide, by decide, by decide⟩,
   ((detect_delimiter_spec sniffNone wSemiText).1 "a;b;c" ["x;y;z"] (by decide)).1 (by decide)⟩

lemma anag_fold_mem {fl : String → Option ℚ} {rows : List (List String)} {data : Combined}
    {id : String} {st : StationData}
    (h : dictFind (rows.foldl (_parse_anagrafica_step fl) data) id = some st) :
    dictFind data id = some st ∨
      ∃ row ∈ rows,
        ¬(row = [] ∨ row.length ≤ LON_IDX) ∧ pyStrip (row.headD "") = id
        ∧ pyIsdigit id = true
        ∧ ∃ la lo, fl (pyCommaToDot (row.getD LAT_IDX "")) = some la
            ∧ fl (pyCommaToDot (row.getD LON_IDX "")) = some lo
            ∧ st = ⟨row.getD GESTORE_IDX "",
                pyStrip (joinWith " "
                  (((row.drop ADDR_IDX_START).take (ADDR_IDX_END - ADDR_IDX_START)).filter
                    (fun f => f ≠ ""))),
                some la, some lo, []⟩ := by
  induction rows generalizing data with
  | nil => exact Or.inl h
  | cons row rest ih =>
    rw [List.foldl_cons] at h
    rcases ih h with h1 | h2
    · by_cases hg : row = [] ∨ row.length ≤ LON_IDX
      · left
        rwa [_parse_anagrafica_step, if_pos hg] at h1
      · rw [_parse_anagrafica_step, if_neg hg] at h1
        by_cases hid : pyStrip (row.headD "") = "" ∨ ¬ pyIsdigit (pyStrip (row.headD ""))
        · left
          rwa [if_pos hid] at h1
        · rw [if_neg hid] at h1
          cases hla : fl (pyCommaToDot (row.getD LAT_IDX "")) with
          | none =>
            left
            simp only [hla] at h1
            exact h1
          | some la =>
            cases hlo : fl (pyCommaToDot (row.getD LON_IDX "")) with
            | none =>
              left
              simp only [hla, hlo] at h1
              exact h1
            | some lo =>
              simp only [hla, hlo] at h1
              by_cases hk : pyStrip (row.headD "") = id
              · right
                rw [hk, dictFind_dictInsert_self] at h1
                push_neg at hid
                refine ⟨row, List.mem_cons_self row rest, hg, hk, ?_, la, lo, hla, hlo, ?_⟩
                · rw [← hk]
                  exact Bool.not_eq_false _ ▸ (Bool.of_not_eq_false (by simpa using hid.2))
                · exact (Option.some_inj.mp h1).symm
              · left
                rwa [dictFind_dictInsert_ne _ _ hk] at h1
    · rcases h2 with ⟨r, hr, hrest⟩
      exact Or.inr ⟨r, List.mem_cons_of_mem _ hr, hrest⟩

/-- C7 (amended): every station id stored by `_parse_anagrafica` is a
non-empty all-digit string (the numeric-id predicate the source checks with
`str.isdigit` — note zero is accepted), and it was contributed by a data row
with enough columns whose two coordinate fields, after replacing the comma
decimal separator, both parse as floats; those parsed values are the stored
coordinates.  Rows with a missing or non-digit id, or an unparseable
coordinate, contribute nothing. -/
theorem anagrafica_id_digits_and_coords_parse
    (fl : String → Option ℚ) (sniff : String → Option String) (text : String)
    (force : Option String) (id : String) (st : StationData)
    (h : dictFind (_parse_anagrafica fl sniff text force) id = some st) :
    pyIsdigit id = true ∧ st.latitudine.isSome ∧ st.longitudine.isSome
    ∧ ∃ row ∈ csvParseRows sniff text force,
        ¬(row = [] ∨ row.length ≤ LON_IDX) ∧ pyStrip (row.headD "") = id
        ∧ fl (pyCommaToDot (row.getD LAT_IDX "")) = st.latitudine
        ∧ fl (pyCommaToDot (row.getD LON_IDX "")) = st.longitudine := by
  rw [_parse_anagrafica] at h
  rcases anag_fold_mem h with h1 | h2
  · simp [dictFind] at h1
  · rcases h2 with ⟨row, hmem, hg, hk, hdig, la, lo, hla, hlo, hst⟩
    subst hst
    exact ⟨hdig, rfl, rfl, row, hmem, hg, hk, hla, hlo⟩

/-- Counterexample for C7 as frozen: a registry row whose station id is
`"0"` — which does not parse as a *positive* integer — still contributes a
record to the merged dataset (`str.isdigit` accepts `"0"`). -/
theorem anagrafica_zero_id_counterexample :
    (dictFind (_parse_anagrafica floatLit sniffNone wAnagText none) "0").isSome = true
    ∧ specParsesAsPositiveInt "0" = false := by
  decide

/-- Witness for C7 (amended) at the concrete registry text. -/
theorem anagrafica_parse_witness :
    (dictFind (_parse_anagrafica floatLit sniffNone wAnagText none) "0" =
        some ⟨"Gest", "Via Roma 1", some (mkRat 455 10), some (mkRat 92 10), []⟩)
    ∧ (pyIsdigit "0" = true
      ∧ (Option.some (mkRat 455 10)).isSome ∧ (Option.some (mkRat 92 10)).isSome
      ∧ ∃ row ∈ csvParseRows sniffNone wAnagText none,
          ¬(row = [] ∨ row.length ≤ LON_IDX) ∧ pyStrip (row.headD "") = "0"
          ∧ floatLit (pyCommaToDot (row.getD LAT_IDX "")) =
              (⟨"Gest", "Via Roma 1", some (mkRat 455 10), some (mkRat 92 10), []⟩ : StationData).latitudine
          ∧ floatLit (pyCommaToDot (row.getD LON_IDX "")) =
              (⟨"Gest", "Via Roma 1", some (mkRat 455 10), some (mkRat 92 10), []⟩ : StationData).longitudine) :=
  ⟨by decide,
   (anagrafica_id_digits_and_coords_parse floatLit sniffNone wAnagText none "0"
      ⟨"Gest", "Via Roma 1", some (mkRat 455 10), some (mkRat 92 10), []⟩ (by decide))⟩

/-! ## Sorting lemmas -/

lemma keyLe_total (a b : Option ℚ) : keyLe a b = true ∨ keyLe b a = true := by
  cases a <;> cases b <;> simp [keyLe] <;> exact le_total _ _

lemma keyLe_trans {a b c : Option ℚ} (h1 : keyLe a b = true) (h2 : keyLe b c = true) :
    keyLe a c = true := by
  cases a <;> cases b <;> cases c <;> simp [keyLe] at * <;> exact le_trans h1 h2

lemma mem_insertSortedBy {α : Type} (key : α → Option ℚ) (a x : α) :
    ∀ l : List α, x ∈ insertSortedBy key a l ↔ x = a ∨ x ∈ l := by
  intro l
  induction l with
  | nil => simp [insertSortedBy]
  | cons y rest ih =>
    rw [insertSortedBy]
    by_cases hc : keyLe (key y) (key a) = true
    · rw [if_pos hc]
      simp only [List.mem_cons, ih]
      tauto
    · rw [if_neg hc]
      simp only [List.mem_cons]

lemma length_insertSortedBy {α : Type} (key : α → Option ℚ) (a : α) :
    ∀ l : List α, (insertSortedBy key a l).length = l.length + 1 := by
  intro l
  induction l with
  | nil => rfl
  | cons y rest ih =>
    rw [insertSortedBy]
    by_cases hc : keyLe (key y) (key a) = true
    · rw [if_pos hc]
      simp [ih]
    · rw [if_neg hc]
      simp

lemma sorted_insertSortedBy {α : Type} (key : α → Option ℚ) (a : α) {l : List α}
    (hl : l.Pairwise (fun x y => keyLe (key x) (key y) = true)) :
    (insertSortedBy key a l).Pairwise (fun x y => keyLe (key x) (key y) = true) := by
  induction l with
  | nil => simp [insertSortedBy]
  | cons y rest ih =>
    rcases List.pairwise_cons.mp hl with ⟨hy, hrest⟩
    rw [insertSortedBy]
    by_cases hc : keyLe (key y) (key a) = true
    · rw [if_pos hc]
      refine List.pairwise_cons.mpr ⟨?_, ih hrest⟩
      intro z hz
      rcases (mem_insertSortedBy key a z rest).mp hz with rfl | hz'
      · exact hc
      · exact hy z hz'
    · rw [if_neg hc]
      have hay : keyLe (key a) (key y) = true := (keyLe_total (key a) (key y)).resolve_right hc
      refine List.pairwise_cons.mpr ⟨?_, hl⟩
      intro z hz
      rcases List.mem_cons.mp hz with rfl | hz'
      · exact hay
      · exact keyLe_trans hay (hy z hz')

lemma sortBy_go_mem {α : Type} (key : α → Option ℚ) (x : α) :
    ∀ (l acc : List α),
      (x ∈ l.foldl (fun acc s => insertSortedBy key s acc) acc ↔ x ∈ acc ∨ x ∈ l) := by
  intro l
  induction l with
  | nil => intro acc; simp
  | cons s rest ih =>
    intro acc
    rw [List.foldl_cons, ih (insertSortedBy key s acc), mem_insertSortedBy]
    simp
    tauto

lemma sortBy_go_sorted {α : Type} (key : α → Option ℚ) :
    ∀ (l acc : List α),
      acc.Pairwise (fun x y => keyLe (key x) (key y) = true) →
      (l.foldl (fun acc s => insertSortedBy key s acc) acc).Pairwise
        (fun x y => keyLe (key x) (key y) = true) := by
  intro l
  induction l with
  | nil => intro acc h; exact h
  | cons s rest ih =>
    intro acc h
    rw [List.foldl_cons]
    exact ih _ (sorted_insertSortedBy key s h)

lemma sortBy_go_length {α : Type} (key : α → Option ℚ) :
    ∀ (l acc : List α),
      (l.foldl (fun acc s => insertSortedBy key s acc) acc).length = acc.length + l.length := by
  intro l
  induction l with
  | nil => intro acc; simp
  | cons s rest ih =>
    intro acc
    rw [List.foldl_cons, ih (insertSortedBy key s acc), length_insertSortedBy]
    simp only [List.length_cons]
    omega

lemma mem_sortBy {α : Type} (key : α → Option ℚ) (x : α) (l : List α) :
    x ∈ sortBy key l ↔ x ∈ l := by
  rw [sortBy, sortBy_go_mem]
  simp

lemma sorted_sortBy {α : Type} (key : α → Option ℚ) (l : List α) :
    (sortBy key l).Pairwise (fun x y => keyLe (key x) (key y) = true) :=
  sortBy_go_sorted key l [] (List.Pairwise.nil)

lemma length_sortBy {α : Type} (key : α → Option ℚ) (l : List α) :
    (sortBy key l).length = l.length := by
  rw [sortBy, sortBy_go_length]
  simp

/-! ## Filter-loop lemmas -/

lemma filter_loop_nil {du : String → Option Int} {now : Int} {hav : ℚ → ℚ → ℚ → ℚ → ℚ}
    {pOpt : Option StationSearchParams} {fuelKey : String} :
    _filter_loop du now hav pOpt fuelKey [] = .ok ([], ⟨0, 0, 0, 0⟩) := rfl

lemma filter_loop_cases {du : String → Option Int} {now : Int} {hav : ℚ → ℚ → ℚ → ℚ → ℚ}
    {pOpt : Option StationSearchParams} {fuelKey : String} {station : StationData}
    {rest : List StationData} {outs : List StationOut} {counts : FilterCounts}
    (h : _filter_loop du now hav pOpt fuelKey (station :: rest) = .ok (outs, counts)) :
    (∃ outs' counts', _filter_loop du now hav pOpt fuelKey rest = .ok (outs', counts')
       ∧ outs = outs'
       ∧ counts.noPrice + counts.stale + counts.invalidCoords + counts.outOfDistance
         = counts'.noPrice + counts'.stale + counts'.invalidCoords + counts'.outOfDistance + 1)
    ∨ (∃ outs' pi lat lon d, _filter_loop du now hav pOpt fuelKey rest = .ok (outs', counts)
       ∧ ¬ fuelKey = "" ∧ dictFind station.prezzi fuelKey = some pi
       ∧ (∃ t, parse_date du pi.data = .ok (some t) ∧ is_recent now (some t) = true)
       ∧ station.latitudine = some lat ∧ station.longitudine = some lon
       ∧ outs = mkStationOut station pi d lat lon :: outs') := by
  rw [_filter_loop] at h
  by_cases hfk : fuelKey = ""
  · rw [if_pos hfk] at h
    obtain ⟨⟨o', c'⟩, hrec, heq⟩ := except_map_ok h
    simp only [Prod.mk.injEq] at heq
    exact Or.inl ⟨o', c', hrec, heq.1, by rw [heq.2]; dsimp only; omega⟩
  · rw [if_neg hfk] at h
    cases hpi : dictFind station.prezzi fuelKey with
    | none =>
      simp only [hpi] at h
      obtain ⟨⟨o', c'⟩, hrec, heq⟩ := except_map_ok h
      simp only [Prod.mk.injEq] at heq
      exact Or.inl ⟨o', c', hrec, heq.1, by rw [heq.2]; dsimp only; omega⟩
    | some pi =>
      simp only [hpi] at h
      cases hpd : parse_date du pi.data with
      | error e =>
        simp only [hpd] at h
        exact Except.noConfusion h
      | ok dt =>
        simp only [hpd] at h
        by_cases hrec : is_recent now dt = true
        · rw [if_neg (by simp [hrec])] at h
          have ht : ∃ t, parse_date du pi.data = .ok (some t) ∧ is_recent now (some t) = true := by
            cases dt with
            | none => simp [is_recent] at hrec
            | some t => exact ⟨t, hpd, hrec⟩
          cases hlat : station.latitudine with
          | none =>
            simp only [hlat] at h
            obtain ⟨⟨o', c'⟩, hrec', heq⟩ := except_map_ok h
            simp only [Prod.mk.injEq] at heq
            exact Or.inl ⟨o', c', hrec', heq.1, by rw [heq.2]; dsimp only; omega⟩
          | some lat =>
            cases hlon : station.longitudine with
            | none =>
              simp only [hlat, hlon] at h
              obtain ⟨⟨o', c'⟩, hrec', heq⟩ := except_map_ok h
              simp only [Prod.mk.injEq] at heq
              exact Or.inl ⟨o', c', hrec', heq.1, by rw [heq.2]; dsimp only; omega⟩
            | some lon =>
              simp only [hlat, hlon] at h
              cases hp : pOpt with
              | none =>
                simp only [hp] at h
                obtain ⟨⟨o', c'⟩, hrec', heq⟩ := except_map_ok h
                simp only [Prod.mk.injEq] at heq
                refine Or.inr ⟨o', pi, lat, lon, none, ?_, hfk, rfl, ht, rfl, rfl, heq.1⟩
                rw [hrec', heq.2]
              | some p =>
                simp only [hp] at h
                by_cases hdist : (p.distance : ℚ) < hav p.latitude p.longitude lat lon
                · rw [if_pos hdist] at h
                  obtain ⟨⟨o', c'⟩, hrec', heq⟩ := except_map_ok h
                  simp only [Prod.mk.injEq] at heq
                  exact Or.inl ⟨o', c', hrec', heq.1, by rw [heq.2]; dsimp only; omega⟩
                · rw [if_neg hdist] at h
                  obtain ⟨⟨o', c'⟩, hrec', heq⟩ := except_map_ok h
                  simp only [Prod.mk.injEq] at heq
                  refine Or.inr ⟨o', pi, lat, lon,
                    some (hav p.latitude p.longitude lat lon), ?_, hfk, rfl, ht, rfl, rfl, heq.1⟩
                  rw [hrec', heq.2]
        · rw [if_pos (by simp [hrec])] at h
          obtain ⟨⟨o', c'⟩, hrec', heq⟩ := except_map_ok h
          simp only [Prod.mk.injEq] at heq
          exact Or.inl ⟨o', c', hrec', heq.1, by rw [heq.2]; dsimp only; omega⟩

lemma filter_loop_mem {du : String → Option Int} {now : Int} {hav : ℚ → ℚ → ℚ → ℚ → ℚ}
    {pOpt : Option StationSearchParams} {fuelKey : String} :
    ∀ {sts : List StationData} {outs : List StationOut} {counts : FilterCounts},
      _filter_loop du now hav pOpt fuelKey sts = .ok (outs, counts) →
      ∀ r ∈ outs, ∃ st ∈ sts,
        st.latitudine = some r.latitudine ∧ st.longitudine = some r.longitudine
        ∧ ∃ pi, dictFind st.prezzi fuelKey = some pi
          ∧ pi.prezzo = r.prezzo ∧ pi.data = r.data
          ∧ ∃ t, parse_date du pi.data = .ok (some t) ∧ is_recent now (some t) = true := by
  intro sts
  induction sts with
  | nil =>
    intro outs counts h r hr
    rw [filter_loop_nil] at h
    simp only [Except.ok.injEq, Prod.mk.injEq] at h
    rw [← h.1] at hr
    simp at hr
  | cons station rest ih =>
    intro outs counts h r hr
    rcases filter_loop_cases h with ⟨o', c', hrec, ho, _⟩ |
      ⟨o', pi, lat, lon, d, hrec, hfk, hpi, ht, hlat, hlon, ho⟩
    · subst ho
      rcases ih hrec r hr with ⟨st, hst, hprops⟩
      exact ⟨st, List.mem_cons_of_mem _ hst, hprops⟩
    · subst ho
      rcases List.mem_cons.mp hr with rfl | hr'
      · exact ⟨station, List.mem_cons_self station rest, hlat, hlon, pi, hpi, rfl, rfl, ht⟩
      · rcases ih hrec r hr' with ⟨st, hst, hprops⟩
        exact ⟨st, List.mem_cons_of_mem _ hst, hprops⟩

lemma filter_loop_counts {du : String → Option Int} {now : Int} {hav : ℚ → ℚ → ℚ → ℚ → ℚ}
    {pOpt : Option StationSearchParams} {fuelKey : String} :
    ∀ {sts : List StationData} {outs : List StationOut} {counts : FilterCounts},
      _filter_loop du now hav pOpt fuelKey sts = .ok (outs, counts) →
      counts.noPrice + counts.stale + counts.invalidCoords + counts.outOfDistance + outs.length
        = sts.length := by
  intro sts
  induction sts with
  | nil =>
    intro outs counts h
    rw [filter_loop_nil] at h
    simp only [Except.ok.injEq, Prod.mk.injEq] at h
    rw [← h.1, ← h.2]
    rfl
  | cons station rest ih =>
    intro outs counts h
    rcases filter_loop_cases h with ⟨o', c', hrec, ho, hsum⟩ |
      ⟨o', pi, lat, lon, d, hrec, _, _, _, _, _, ho⟩
    · subst ho
      have := ih hrec
      simp only [List.length_cons]
      omega
    · subst ho
      have := ih hrec
      simp only [List.length_cons]
      omega

/-- C9: the filter's return value is the surviving stations sorted ascending
by price and truncated to `max(1, min(resultsLimit, availableCount))`
entries: when at least one station survives the result has exactly that many
entries (never zero, even for a results limit of zero), and when no station
survives the result is empty. -/
theorem filter_sort_truncate_spec
    (du : String → Option Int) (now : Int) (hav : ℚ → ℚ → ℚ → ℚ → ℚ)
    (combined : Combined) (pOpt : Option StationSearchParams)
    (survivors : List StationOut) (counts : FilterCounts)
    (h : _filter_and_transform_core du now hav combined pOpt = .ok (survivors, counts)) :
    _filter_and_transform_combined du now hav combined pOpt =
      .ok (pyTrunc (filterResultsMax pOpt) (sortBy stationSortKey survivors))
    ∧ (pyTrunc (filterResultsMax pOpt) (sortBy stationSortKey survivors)).Pairwise
        (fun a b => a.prezzo ≤ b.prezzo)
    ∧ (survivors ≠ [] →
        ((pyTrunc (filterResultsMax pOpt) (sortBy stationSortKey survivors)).length : Int)
          = max 1 (min (filterResultsMax pOpt) (survivors.length : Int)))
    ∧ (survivors = [] →
        pyTrunc (filterResultsMax pOpt) (sortBy stationSortKey survivors) = []) := by
  refine ⟨?_, ?_, ?_, ?_⟩
  · rw [_filter_and_transform_combined, h]
    rfl
  · have hs := sorted_sortBy stationSortKey survivors
    have hsub : List.Sublist (pyTrunc (filterResultsMax pOpt) (sortBy stationSortKey survivors))
        (sortBy stationSortKey survivors) := by
      rw [pyTrunc]
      exact List.take_sublist _ _
    refine (hs.sublist hsub).imp ?_
    intro a b hab
    simpa [stationSortKey, keyLe] using hab
  · intro hne
    rw [pyTrunc, List.length_take, length_sortBy]
    have hlen : 1 ≤ survivors.length := List.length_pos.mpr hne
    omega
  · intro he
    subst he
    simp [pyTrunc, sortBy]

/-- Witness for C9 at the concrete one-station dataset. -/
theorem filter_sort_truncate_witness :
    (_filter_and_transform_core duNone wNow havZero wCombined (some wParams)
        = .ok ([wOut], ⟨0, 0, 0, 0⟩))
    ∧ (_filter_and_transform_combined duNone wNow havZero wCombined (some wParams) =
          .ok (pyTrunc (filterResultsMax (some wParams)) (sortBy stationSortKey [wOut]))
       ∧ (pyTrunc (filterResultsMax (some wParams)) (sortBy stationSortKey [wOut])).Pairwise
            (fun a b => a.prezzo ≤ b.prezzo)
       ∧ (([wOut] : List StationOut) ≠ [] →
            ((pyTrunc (filterResultsMax (some wParams)) (sortBy stationSortKey [wOut])).length : Int)
              = max 1 (min (filterResultsMax (some wParams)) (([wOut] : List StationOut).length : Int)))
       ∧ (([wOut] : List StationOut) = [] →
            pyTrunc (filterResultsMax (some wParams)) (sortBy stationSortKey [wOut]) = [])) :=
  ⟨rfl, filter_sort_truncate_spec duNone wNow havZero wCombined (some wParams) [wOut] ⟨0, 0, 0, 0⟩ rfl⟩

/-- Counterexample for C5 as frozen: two combined datasets with different
per-reason exclusion counts produce identical return values of
`_filter_and_transform_combined`, so the counts (which the source computes
and logs) are not part of what the filter returns to the caller. -/
theorem filter_counts_not_returned_counterexample :
    _filter_and_transform_combined duNone wNow havZero wNoPrezziCombined (some wParams)
      = _filter_and_transform_combined duNone wNow havZero [] (some wParams)
    ∧ _filter_and_transform_core duNone wNow havZero wNoPrezziCombined (some wParams)
      ≠ _filter_and_transform_core duNone wNow havZero [] (some wParams) := by
  constructor
  · rfl
  · intro hcontra
    have h1 : _filter_and_transform_core duNone wNow havZero wNoPrezziCombined (some wParams)
        = .ok ([], ⟨1, 0, 0, 0⟩) := rfl
    have h2 : _filter_and_transform_core duNone wNow havZero [] (some wParams)
        = .ok ([], ⟨0, 0, 0, 0⟩) := rfl
    rw [h1, h2] at hcontra
    simp at hcontra

/-- C5 (amended): the filter computes the four per-reason exclusion counters
(no-price, stale, invalid-coords, out-of-range) — together with the
survivors they partition the dataset — and logs them, but its return value
to the caller is only the sorted, truncated station list. -/
theorem filter_counts_computed_not_returned
    (du : String → Option Int) (now : Int) (hav : ℚ → ℚ → ℚ → ℚ → ℚ)
    (combined : Combined) (pOpt : Option StationSearchParams)
    (outs : List StationOut) (counts : FilterCounts)
    (h : _filter_and_transform_core du now hav combined pOpt = .ok (outs, counts)) :
    counts.noPrice + counts.stale + counts.invalidCoords + counts.outOfDistance + outs.length
      = combined.length
    ∧ _filter_and_transform_combined du now hav combined pOpt =
        .ok (pyTrunc (filterResultsMax pOpt) (sortBy stationSortKey outs)) := by
  constructor
  · rw [_filter_and_transform_core] at h
    have := filter_loop_counts h
    rwa [List.length_map] at this
  · rw [_filter_and_transform_combined, h]
    rfl

/-- Witness for C5 (amended) at the concrete one-station dataset. -/
theorem filter_counts_witness :
    (_filter_and_transform_core duNone wNow havZero wNoPrezziCombined (some wParams)
        = .ok ([], ⟨1, 0, 0, 0⟩))
    ∧ ((1 + 0 + 0 + 0 + ([] : List StationOut).length = wNoPrezziCombined.length)
       ∧ _filter_and_transform_combined duNone wNow havZero wNoPrezziCombined (some wParams) =
           .ok (pyTrunc (filterResultsMax (some wParams)) (sortBy stationSortKey []))) :=
  ⟨rfl, by
    have := filter_counts_computed_not_returned duNone wNow havZero wNoPrezziCombined
      (some wParams) [] ⟨1, 0, 0, 0⟩ rfl
    simpa using this⟩

lemma pansStep_no_origin {ft : String} {acc : List Station × Nat} {idxData : Nat × StationOut}
    {x : Station}
    (hacc : ∀ y ∈ acc.1, ¬(y.latitude = 0 ∧ y.longitude = 0))
    (hx : x ∈ (pansStep ft acc idxData).1) : ¬(x.latitude = 0 ∧ x.longitude = 0) := by
  rw [pansStep] at hx
  by_cases hc : idxData.2.latitudine = 0 ∧ idxData.2.longitudine = 0
  · rw [if_pos hc] at hx
    exact hacc x hx
  · rw [if_neg hc] at hx
    rcases List.mem_append.mp hx with hx' | hx'
    · exact hacc x hx'
    · simp only [List.mem_singleton] at hx'
      subst hx'
      simpa using hc

lemma pans_fold_no_origin {ft : String} :
    ∀ (l : List (Nat × StationOut)) (acc : List Station × Nat),
      (∀ y ∈ acc.1, ¬(y.latitude = 0 ∧ y.longitude = 0)) →
      ∀ x ∈ (l.foldl (pansStep ft) acc).1, ¬(x.latitude = 0 ∧ x.longitude = 0) := by
  intro l
  induction l with
  | nil => intro acc hacc x hx; exact hacc x hx
  | cons p rest ih =>
    intro acc hacc x hx
    rw [List.foldl_cons] at hx
    exact ih (pansStep ft acc p) (fun y hy => pansStep_no_origin hacc hy) x hx

lemma pans_mem_no_origin {payload : List StationOut} {ft : String} {lim : Int} :
    ∀ s ∈ (parse_and_normalize_stations payload ft lim).1,
      ¬(s.latitude = 0 ∧ s.longitude = 0) := by
  intro s hs
  rw [parse_and_normalize_stations] at hs
  have hs1 : s ∈ sortBy stationKey (payload.enum.foldl (pansStep ft) ([], 0)).1 :=
    List.mem_of_mem_take hs
  have hs2 := (mem_sortBy _ _ _).mp hs1
  exact pans_fold_no_origin payload.enum ([], 0) (by simp) s hs2

/-- C1: every station dict in the list `_filter_and_transform_combined`
returns comes from a station of the combined dataset with non-null
coordinates and a price entry for the requested fuel key whose observation
timestamp parses and is within the 7-day recency window (this holds for
every radius, so stations with stale prices are excluded regardless of
radius); and after `parse_and_normalize_stations` — the stage that drops
`(0, 0)` coordinates — no station of the `QueryResult` sits at `(0, 0)`,
again regardless of radius. -/
theorem queryResult_invariant
    (du : String → Option Int) (now : Int) (hav : ℚ → ℚ → ℚ → ℚ → ℚ)
    (combined : Combined) (pOpt : Option StationSearchParams) (out : List StationOut)
    (h : _filter_and_transform_combined du now hav combined pOpt = .ok out) :
    (∀ r ∈ out, ∃ st ∈ combined.map Prod.snd,
        st.latitudine = some r.latitudine ∧ st.longitudine = some r.longitudine
        ∧ ∃ pi, dictFind st.prezzi (filterFuel pOpt) = some pi
          ∧ pi.prezzo = r.prezzo ∧ pi.data = r.data
          ∧ ∃ t, parse_date du pi.data = .ok (some t) ∧ is_recent now (some t) = true)
    ∧ ∀ (fuelType : String) (resultsLimit : Int),
        ∀ s ∈ (parse_and_normalize_stations out fuelType resultsLimit).1,
          ¬(s.latitude = 0 ∧ s.longitude = 0) := by
  constructor
  · intro r hr
    rw [_filter_and_transform_combined] at h
    obtain ⟨⟨survivors, counts⟩, hcore, hout⟩ := except_map_ok h
    rw [hout, pyTrunc] at hr
    have hr1 : r ∈ sortBy stationSortKey survivors := List.mem_of_mem_take hr
    have hr2 := (mem_sortBy _ _ _).mp hr1
    rw [_filter_and_transform_core] at hcore
    exact filter_loop_mem hcore r hr2
  · intro ft lim s hs
    exact pans_mem_no_origin s hs

/-- Witness for C1 at the concrete one-station dataset. -/
theorem queryResult_invariant_witness :
    (_filter_and_transform_combined duNone wNow havZero wCombined (some wParams) = .ok [wOut])
    ∧ ((∀ r ∈ [wOut], ∃ st ∈ wCombined.map Prod.snd,
          st.latitudine = some r.latitudine ∧ st.longitudine = some r.longitudine
          ∧ ∃ pi, dictFind st.prezzi (filterFuel (some wParams)) = some pi
            ∧ pi.prezzo = r.prezzo ∧ pi.data = r.data
            ∧ ∃ t, parse_date duNone pi.data = .ok (some t) ∧ is_recent wNow (some t) = true)
       ∧ ∀ (fuelType : String) (resultsLimit : Int),
          ∀ s ∈ (parse_and_normalize_stations [wOut] fuelType resultsLimit).1,
            ¬(s.latitude = 0 ∧ s.longitude = 0)) :=
  ⟨rfl, queryResult_invariant duNone wNow havZero wCombined (some wParams) [wOut] rfl⟩

/-! ## `_parse_prezzi` merge lemmas (C4) -/

lemma mkPriceInfo_prezzo (p : ℚ) (row : List String) : (mkPriceInfo p row).prezzo = p := rfl

lemma minPrice?_cons (p : ℚ) (l : List ℚ) :
    minPrice? (p :: l)
      = match minPrice? l with | none => some p | some m => some (minQ p m) := rfl

lemma minQ_le_left (a b : ℚ) : minQ a b ≤ a := by
  rw [minQ]
  split_ifs with h
  · exact le_refl a
  · exact le_of_not_le h

lemma prezziRowGuard_false {row : List String}
    (hg : row = [] ∨ row.length ≤ PREZZI_MIN_COLS - 1) : prezziRowGuard row = false := by
  rcases hg with hg | hg
  · subst hg; rfl
  · simp [prezziRowGuard, hg]

lemma prezziRowGuard_true {row : List String}
    (hg : ¬(row = [] ∨ row.length ≤ PREZZI_MIN_COLS - 1)) : prezziRowGuard row = true := by
  push_neg at hg
  cases row with
  | nil => exact absurd rfl hg.1
  | cons a l =>
    simp only [prezziRowGuard, List.isEmpty_cons, Bool.false_or, Bool.not_eq_true',
      decide_eq_false_iff_not]
    have := hg.2
    simp only [List.length_cons] at this ⊢
    omega

lemma prezzi_step_shape (fl : String → Option ℚ) (data : Combined) (row : List String) :
    _parse_prezzi_step fl data row = data ∨
    ∃ f, _parse_prezzi_step fl data row = dictUpdate (prezziRowId row) f data := by
  rw [_parse_prezzi_step]
  by_cases hg : row = [] ∨ row.length ≤ PREZZI_MIN_COLS - 1
  · rw [if_pos hg]
    exact Or.inl rfl
  · rw [if_neg hg]
    cases hfind : dictFind data (prezziRowId row) with
    | none =>
      exact Or.inl (by simp [hfind])
    | some station =>
      cases hpr : prezziPrice fl row with
      | none =>
        exact Or.inl (by simp [hfind, hpr])
      | some price =>
        cases hex : dictFind station.prezzi (canonicalFuelKey (prezziFuelRaw row)) with
        | none =>
          refine Or.inr ⟨fun st =>
            { st with
              prezzi := dictInsert (canonicalFuelKey (prezziFuelRaw row)) (mkPriceInfo price row) st.prezzi },
            ?_⟩
          simp [hfind, hpr, hex]
        | some existing =>
          by_cases hlt : price < existing.prezzo
          · refine Or.inr ⟨fun st =>
              { st with
                prezzi := dictInsert (canonicalFuelKey (prezziFuelRaw row)) (mkPriceInfo price row) st.prezzi },
              ?_⟩
            simp [hfind, hpr, hex, hlt]
          · exact Or.inl (by simp [hfind, hpr, hex, hlt])

lemma dictUpdate_isSome {α : Type} (l : List (String × α)) (k' id : String) (f : α → α) :
    (dictFind (dictUpdate k' f l) id).isSome = (dictFind l id).isSome := by
  by_cases hk : k' = id
  · subst hk
    rw [dictFind_dictUpdate_self]
    cases dictFind l k' <;> rfl
  · rw [dictFind_dictUpdate_ne _ _ hk]

lemma prezzi_step_isSome (fl : String → Option ℚ) (data : Combined) (row : List String)
    (id : String) :
    (dictFind (_parse_prezzi_step fl data row) id).isSome = (dictFind data id).isSome := by
  rcases prezzi_step_shape fl data row with h | ⟨f, h⟩
  · rw [h]
  · rw [h, dictUpdate_isSome]

lemma prezzi_step_price_none (fl : String → Option ℚ) (data : Combined) (row : List String)
    (h : prezziPrice fl row = none) : _parse_prezzi_step fl data row = data := by
  rw [_parse_prezzi_step]
  by_cases hg : row = [] ∨ row.length ≤ PREZZI_MIN_COLS - 1
  · rw [if_pos hg]
  · rw [if_neg hg]
    cases hfind : dictFind data (prezziRowId row) with
    | none => simp [hfind]
    | some station => simp [hfind, h]

lemma prezzi_step_entry (fl : String → Option ℚ) (data : Combined) (row : List String)
    (id k : String) (hid : (dictFind data id).isSome = true) :
    priceEntry (_parse_prezzi_step fl data row) id k
      = oneKeyUpdate fl id k (priceEntry data id k) row := by
  by_cases hg : row = [] ∨ row.length ≤ PREZZI_MIN_COLS - 1
  · rw [_parse_prezzi_step, if_pos hg]
    have hguard := prezziRowGuard_false hg
    simp [oneKeyUpdate, prezziRowMatches, hguard]
  · by_cases hkid : prezziRowId row = id
    · -- the row targets our station
      rw [_parse_prezzi_step, if_neg hg, hkid]
      obtain ⟨station, hst⟩ := Option.isSome_iff_exists.mp hid
      have hpe : priceEntry data id k = dictFind station.prezzi k := by
        rw [priceEntry, hst]
      simp only [hst]
      cases hpr : prezziPrice fl row with
      | none =>
        cases hm : prezziRowMatches id k row <;> simp [oneKeyUpdate, hm, hpr]
      | some price =>
        simp only [hpr]
        by_cases hck : canonicalFuelKey (prezziFuelRaw row) = k
        · have hmatch : prezziRowMatches id k row = true := by
            simp [prezziRowMatches, prezziRowGuard_true hg, hkid, hck]
          rw [hck]
          cases hex : dictFind station.prezzi k with
          | none =>
            simp only [hex]
            rw [priceEntry, dictFind_dictUpdate_self, hst]
            simp [oneKeyUpdate, hmatch, hpr, hpe, hex, dictFind_dictInsert_self]
          | some existing =>
            simp only [hex]
            by_cases hlt : price < existing.prezzo
            · rw [if_pos hlt]
              rw [priceEntry, dictFind_dictUpdate_self, hst]
              simp [oneKeyUpdate, hmatch, hpr, hpe, hex, hlt, dictFind_dictInsert_self]
            · rw [if_neg hlt]
              simp [oneKeyUpdate, hmatch, hpr, hpe, hex, hlt]
        · have hmatch : prezziRowMatches id k row = false := by
            simp [prezziRowMatches, hck]
          have hne : canonicalFuelKey (prezziFuelRaw row) ≠ k := hck
          cases hex : dictFind station.prezzi (canonicalFuelKey (prezziFuelRaw row)) with
          | none =>
            simp only [hex]
            rw [priceEntry, dictFind_dictUpdate_self, hst]
            simp [oneKeyUpdate, hmatch, hpe, dictFind_dictInsert_ne _ _ hne]
          | some existing =>
            simp only [hex]
            by_cases hlt : price < existing.prezzo
            · rw [if_pos hlt]
              rw [priceEntry, dictFind_dictUpdate_self, hst]
              simp [oneKeyUpdate, hmatch, hpe, dictFind_dictInsert_ne _ _ hne]
            · rw [if_neg hlt]
              simp [oneKeyUpdate, hmatch]
    · -- the row targets a different station (or none)
      have hmatch : prezziRowMatches id k row = false := by
        simp [prezziRowMatches, hkid]
      rcases prezzi_step_shape fl data row with hsh | ⟨f, hsh⟩
      · rw [hsh]
        simp [oneKeyUpdate, hmatch]
      · rw [hsh, priceEntry, dictFind_dictUpdate_ne _ _ hkid]
        simp [oneKeyUpdate, hmatch, priceEntry]

lemma prezzi_fold_entry (fl : String → Option ℚ) (id k : String) :
    ∀ (rows : List (List String)) (data : Combined),
      (dictFind data id).isSome = true →
      priceEntry (rows.foldl (_parse_prezzi_step fl) data) id k
        = oneKeyFold fl id k rows (priceEntry data id k) := by
  intro rows
  induction rows with
  | nil => intro data _; rfl
  | cons row rest ih =>
    intro data hid
    rw [List.foldl_cons, oneKeyFold, List.foldl_cons]
    have hid' : (dictFind (_parse_prezzi_step fl data row) id).isSome = true := by
      rw [prezzi_step_isSome]; exact hid
    rw [ih (_parse_prezzi_step fl data row) hid', prezzi_step_entry fl data row id k hid]
    rfl

lemma oneKeyFold_cons (fl : String → Option ℚ) (id k : String) (row : List String)
    (rest : List (List String)) (acc : Option PriceInfo) :
    oneKeyFold fl id k (row :: rest) acc
      = oneKeyFold fl id k rest (oneKeyUpdate fl id k acc row) := rfl

lemma oneKeyFold_acc_spec (fl : String → Option ℚ) (id k : String) :
    ∀ (rows : List (List String)) (acc : Option PriceInfo),
      oneKeyFold fl id k rows acc =
        match minPrice? ((matchingPairs fl id k rows).map Prod.snd), acc with
        | none, _ => acc
        | some m, some ex =>
            if ex.prezzo ≤ m then acc
            else ((matchingPairs fl id k rows).find? (fun rp => decide (rp.2 = m))).map
                (fun rp => mkPriceInfo rp.2 rp.1)
        | some m, none =>
            ((matchingPairs fl id k rows).find? (fun rp => decide (rp.2 = m))).map
                (fun rp => mkPriceInfo rp.2 rp.1) := by
  intro rows
  induction rows with
  | nil =>
    intro acc
    cases acc <;> rfl
  | cons row rest ih =>
    intro acc
    rw [oneKeyFold_cons, ih (oneKeyUpdate fl id k acc row)]
    by_cases hm : prezziRowMatches id k row = true
    · cases hpr : prezziPrice fl row with
      | none =>
        have hupd : oneKeyUpdate fl id k acc row = acc := by
          simp [oneKeyUpdate, hm, hpr]
        have hpairs : matchingPairs fl id k (row :: rest) = matchingPairs fl id k rest := by
          simp [matchingPairs, List.filterMap_cons, hm, hpr]
        rw [hupd, hpairs]
      | some p =>
        have hpairs : matchingPairs fl id k (row :: rest)
            = (row, p) :: matchingPairs fl id k rest := by
          simp [matchingPairs, List.filterMap_cons, hm, hpr]
        rw [hpairs]
        have hG : ∀ m : ℚ,
            (((row, p) :: matchingPairs fl id k rest).find?
                (fun rp => decide (rp.2 = m))).map (fun rp => mkPriceInfo rp.2 rp.1)
              = if p = m then some (mkPriceInfo p row)
                else ((matchingPairs fl id k rest).find?
                    (fun rp => decide (rp.2 = m))).map (fun rp => mkPriceInfo rp.2 rp.1) := by
          intro m
          by_cases hpm : p = m
          · rw [List.find?_cons_of_pos _ (by simp [hpm]), if_pos hpm]
            simp [hpm]
          · rw [List.find?_cons_of_neg _ (by simp [hpm]), if_neg hpm]
        simp only [List.map_cons, minPrice?_cons]
        cases acc with
        | none =>
          have hupd : oneKeyUpdate fl id k none row = some (mkPriceInfo p row) := by
            simp [oneKeyUpdate, hm, hpr]
          rw [hupd]
          cases hMv : minPrice? ((matchingPairs fl id k rest).map Prod.snd) with
          | none =>
            simp only [mkPriceInfo_prezzo]
            rw [hG p, if_pos rfl]
          | some m' =>
            simp only [mkPriceInfo_prezzo]
            by_cases hpm : p ≤ m'
            · rw [if_pos hpm]
              have : minQ p m' = p := by rw [minQ, if_pos hpm]
              rw [this, hG p, if_pos rfl]
            · rw [if_neg hpm]
              have hmq : minQ p m' = m' := by rw [minQ, if_neg hpm]
              have hne : p ≠ m' := fun hc => hpm (le_of_eq hc)
              rw [hmq, hG m', if_neg hne]
        | some ex =>
          by_cases hlt : p < ex.prezzo
          · have hupd : oneKeyUpdate fl id k (some ex) row = some (mkPriceInfo p row) := by
              simp [oneKeyUpdate, hm, hpr, hlt]
            rw [hupd]
            cases hMv : minPrice? ((matchingPairs fl id k rest).map Prod.snd) with
            | none =>
              simp only [mkPriceInfo_prezzo]
              rw [if_neg (not_le.mpr hlt), hG p, if_pos rfl]
            | some m' =>
              simp only [mkPriceInfo_prezzo]
              by_cases hpm : p ≤ m'
              · have hmq : minQ p m' = p := by rw [minQ, if_pos hpm]
                rw [if_pos hpm, hmq, if_neg (not_le.mpr hlt), hG p, if_pos rfl]
              · have hmq : minQ p m' = m' := by rw [minQ, if_neg hpm]
                have hm'p : m' < p := lt_of_not_le hpm
                rw [if_neg hpm, hmq, if_neg (not_le.mpr (lt_trans hm'p hlt)), hG m',
                  if_neg (ne_of_gt hm'p)]
          · have hexp : ex.prezzo ≤ p := not_lt.mp hlt
            have hupd : oneKeyUpdate fl id k (some ex) row = some ex := by
              simp [oneKeyUpdate, hm, hpr, hlt]
            rw [hupd]
            cases hMv : minPrice? ((matchingPairs fl id k rest).map Prod.snd) with
            | none =>
              dsimp only
              rw [if_pos hexp]
            | some m' =>
              dsimp only
              by_cases hem : ex.prezzo ≤ m'
              · rw [if_pos hem]
                have hmin : ex.prezzo ≤ minQ p m' := by
                  rw [minQ]
                  split_ifs
                  · exact hexp
                  · exact hem
                rw [if_pos hmin]
              · rw [if_neg hem]
                have hm'e : m' < ex.prezzo := lt_of_not_le hem
                have hm'p : m' < p := lt_of_lt_of_le hm'e hexp
                have hmq : minQ p m' = m' := by rw [minQ, if_neg (not_le.mpr hm'p)]
                rw [hmq, if_neg hem, hG m', if_neg (ne_of_gt hm'p)]
    · have hupd : oneKeyUpdate fl id k acc row = acc := by
        simp [oneKeyUpdate, hm]
      have hpairs : matchingPairs fl id k (row :: rest) = matchingPairs fl id k rest := by
        simp [matchingPairs, List.filterMap_cons, hm]
      rw [hupd, hpairs]

lemma minPrice?_mem {l : List ℚ} {m : ℚ} (h : minPrice? l = some m) : m ∈ l := by
  induction l generalizing m with
  | nil => simp [minPrice?] at h
  | cons p rest ih =>
    rw [minPrice?_cons] at h
    cases hM : minPrice? rest with
    | none =>
      rw [hM] at h
      simp at h
      simp [h]
    | some m' =>
      rw [hM] at h
      simp at h
      rw [← h, minQ]
      split_ifs
      · exact List.mem_cons_self _ _
      · exact List.mem_cons_of_mem _ (ih hM)

/-- C4: starting from a dataset that knows station `id` but has no price
entry yet for fuel key `k`, running `_parse_prezzi` leaves as the `(id, k)`
entry (i) a price equal to the minimum of the successfully parsed prices of
the rows targeting `(id, k)`, (ii) built from the first row attaining that
minimum (an equal price never displaces the entry, only a strictly lower
one does), and (iii) a row whose price field does not parse is a no-op for
the whole step and so never overwrites anything. -/
theorem prezzi_lowest_price_retained
    (fl : String → Option ℚ) (sniff : String → Option String) (text : String)
    (force : Option String) (data0 : Combined) (id k : String)
    (hid : (dictFind data0 id).isSome = true)
    (h0 : priceEntry data0 id k = none) :
    ((priceEntry (_parse_prezzi fl sniff text data0 force) id k).map PriceInfo.prezzo
        = minPrice? ((matchingPairs fl id k (csvParseRows sniff text force)).map Prod.snd))
    ∧ (priceEntry (_parse_prezzi fl sniff text data0 force) id k
        = match minPrice? ((matchingPairs fl id k (csvParseRows sniff text force)).map Prod.snd) with
          | none => none
          | some m => ((matchingPairs fl id k (csvParseRows sniff text force)).find?
                (fun rp => decide (rp.2 = m))).map (fun rp => mkPriceInfo rp.2 rp.1))
    ∧ (∀ (d : Combined) (row : List String), prezziPrice fl row = none →
        _parse_prezzi_step fl d row = d) := by
  have hfold : priceEntry (_parse_prezzi fl sniff text data0 force) id k
      = oneKeyFold fl id k (csvParseRows sniff text force) (priceEntry data0 id k) := by
    rw [_parse_prezzi]
    exact prezzi_fold_entry fl id k (csvParseRows sniff text force) data0 hid
  rw [h0, oneKeyFold_acc_spec] at hfold
  refine ⟨?_, ?_, ?_⟩
  · rw [hfold]
    cases hM : minPrice? ((matchingPairs fl id k (csvParseRows sniff text force)).map Prod.snd) with
    | none => rfl
    | some m =>
      dsimp only
      rcases List.mem_map.mp (minPrice?_mem hM) with ⟨rp, hrp, hrp2⟩
      cases hx : (matchingPairs fl id k (csvParseRows sniff text force)).find?
          (fun rp => decide (rp.2 = m)) with
      | none =>
        exact absurd (by simp [hrp2]) (List.find?_eq_none.mp hx rp hrp)
      | some x =>
        have hx2 : x.2 = m := by simpa using List.find?_some hx
        simp [mkPriceInfo_prezzo, hx2]
  · rw [hfold]
    cases hM : minPrice? ((matchingPairs fl id k (csvParseRows sniff text force)).map Prod.snd) with
    | none => rfl
    | some m => rfl
  · intro d row hpr
    exact prezzi_step_price_none fl d row hpr

/-- Witness for C4: three price rows for station 1 / key benzina with prices
2, 3 and an unparseable one; the retained entry is the first row's, price 2. -/
theorem prezzi_lowest_price_witness :
    ((dictFind ([("1", wAnagStation)] : Combined) "1").isSome = true
      ∧ priceEntry [("1", wAnagStation)] "1" "benzina" = none
      ∧ priceEntry (_parse_prezzi floatLit sniffNone wPrezziText [("1", wAnagStation)] none)
          "1" "benzina" = some ⟨2, true, "01/01/2026"⟩)
    ∧ (((priceEntry (_parse_prezzi floatLit sniffNone wPrezziText [("1", wAnagStation)] none)
            "1" "benzina").map PriceInfo.prezzo
          = minPrice? ((matchingPairs floatLit "1" "benzina"
              (csvParseRows sniffNone wPrezziText none)).map Prod.snd))
       ∧ (priceEntry (_parse_prezzi floatLit sniffNone wPrezziText [("1", wAnagStation)] none)
            "1" "benzina"
          = match minPrice? ((matchingPairs floatLit "1" "benzina"
                (csvParseRows sniffNone wPrezziText none)).map Prod.snd) with
            | none => none
            | some m => ((matchingPairs floatLit "1" "benzina"
                  (csvParseRows sniffNone wPrezziText none)).find?
                  (fun rp => decide (rp.2 = m))).map (fun rp => mkPriceInfo rp.2 rp.1))
       ∧ (∀ (d : Combined) (row : List String), prezziPrice floatLit row = none →
            _parse_prezzi_step floatLit d row = d)) :=
  ⟨⟨by decide, by decide, by decide⟩,
   prezzi_lowest_price_retained floatLit sniffNone wPrezziText none [("1", wAnagStation)]
     "1" "benzina" (by decide) (by decide)⟩
